import Mathlib

/-!
# Verification of the credit-metered ask backend (`backend/app/main.py`)

Shallow embedding of the credit reservation/capture/refund protocol, the
idempotent replay logic, the follow-up threading, and the history-tree
resolution from `backend/app/main.py`, together with the entity shapes from
`backend/app/models/`.

Modelling conventions:
* Row identifiers (users, questions, followups) are `Nat`; the `nextId`
  counter of `DB` plays the role of `uuid4()` freshness, and request ids are
  rendered as strings from the counter.
* Every table is a `List` kept in ascending `(created_at, id)` order (rows are
  appended at creation time), so SQL `ORDER BY created_at ASC, id ASC` is the
  list order and `ORDER BY ... DESC` is `List.reverse`.
* Wallet balances are `Int`, as the column is a signed integer; the
  non-negativity `CHECK` constraint is a separate property, not a type.
* A database commit is modelled functionally: the committed state is the
  returned `DB`; a rollback returns the original `DB` unchanged.
* The one environmental effect — an exception while generating/persisting the
  success bundle (the `try`/`except` around the second commit of
  `_execute_ask`) — is an explicit boolean oracle `genOk`.  The
  `(user, action, idempotency_key)` uniqueness constraint of
  `credit_transactions` and the `(user, idempotency_key)` constraint of
  `questions` are modelled as explicit pre-commit checks, which is their
  sequential semantics.
-/

namespace CyberOracle

/-- `questions` row (`backend/app/models/question.py`), timestamps elided. -/
structure Question where
  qid : Nat
  userId : Nat
  questionText : String
  lang : String
  mode : String
  /-- one of `"submitted"`, `"succeeded"`, `"failed"` -/
  status : String
  /-- one of `"rag"`, `"rule"`, `"openai"`, `"mock"` -/
  source : String
  requestId : String
  idempotencyKey : String
  deriving Repr, DecidableEq

/-- `answers` row (`backend/app/models/answer.py`). -/
structure Answer where
  questionId : Nat
  answerText : String
  mainPct : Int
  secondaryPct : Int
  referencePct : Int
  deriving Repr, DecidableEq

/-- `followups` row (`backend/app/models/followup.py` plus the
`used_question_id` / `origin_request_id` columns added by migration
`20260219_0005_update_followups_for_threaded_asks`). -/
structure Followup where
  fid : Nat
  questionId : Nat
  userId : Nat
  content : String
  /-- `"pending"` or `"used"` -/
  status : String
  usedQuestionId : Option Nat
  originRequestId : String
  deriving Repr, DecidableEq

/-- `credit_wallets` row (`backend/app/models/credit_wallet.py`). -/
structure CreditWallet where
  userId : Nat
  balance : Int
  deriving Repr, DecidableEq

/-- `credit_transactions` row (`backend/app/models/credit_transaction.py`). -/
structure CreditTransaction where
  userId : Nat
  questionId : Option Nat
  orderId : Option Nat
  /-- one of `"reserve"`, `"capture"`, `"refund"`, `"grant"`, `"purchase"` -/
  action : String
  amount : Int
  reasonCode : String
  idempotencyKey : String
  requestId : String
  deriving Repr, DecidableEq

/-- `orders` row (`backend/app/models/order.py`), restricted to the fields the
credit protocol reads. -/
structure Order where
  oid : Nat
  userId : Nat
  packageSize : Nat
  status : String
  idempotencyKey : String
  deriving Repr, DecidableEq

/-- The relational state touched by the credit/ask endpoints.  `nextId` is the
fresh-identifier source standing in for `uuid4()`. -/
structure DB where
  questions : List Question
  answers : List Answer
  followups : List Followup
  wallets : List CreditWallet
  transactions : List CreditTransaction
  orders : List Order
  nextId : Nat
  deriving Repr, DecidableEq

/-- `CREDIT_COST_PER_ASK` in `main.py`. -/
def CREDIT_COST_PER_ASK : Int := 1

/-- `FOLLOWUP_OPTIONS_COUNT` in `main.py`. -/
def FOLLOWUP_OPTIONS_COUNT : Nat := 3

/-- `ASK_HISTORY_PREVIEW_MAX_LENGTH` in `main.py`. -/
def ASK_HISTORY_PREVIEW_MAX_LENGTH : Nat := 160

/-- The error outcomes `_execute_ask` can raise as `HTTPException`s. -/
inductive AskError where
  /-- 402 `INSUFFICIENT_CREDIT` -/
  | insufficientCredit
  /-- 409 `IDEMPOTENCY_CONFLICT` ("Duplicate request is in progress") -/
  | idempotencyConflict
  /-- 500 `ASK_REPLAY_FAILED` -/
  | askReplayFailed
  /-- 500 `ASK_PROCESSING_FAILED` -/
  | askProcessingFailed
  deriving Repr, DecidableEq

/-- The `AskResponse` schema assembled by `_to_ask_response`. -/
structure AskResponse where
  answer : String
  source : String
  mainPct : Int
  secondaryPct : Int
  referencePct : Int
  requestId : String
  /-- `(id, content)` of each offered follow-up option -/
  followupOptions : List (Nat × String)
  deriving Repr, DecidableEq

/-- `_build_mock_answer_text`. -/
def buildMockAnswerText (question : String) : String :=
  "（Mock）已收到你的問題：" ++ question ++ "。目前為開發環境回覆。"

/-- `_to_ask_response`: the follow-up options are the first
`FOLLOWUP_OPTIONS_COUNT` followups of the question in `(created_at, id)`
order, with no filter on their status. -/
def toAskResponse (db : DB) (question : Question) (answer : Answer) : AskResponse :=
  let followupRows :=
    ((db.followups.filter (fun f => f.questionId == question.qid)).take
      FOLLOWUP_OPTIONS_COUNT)
  { answer := answer.answerText
    source := question.source
    mainPct := answer.mainPct
    secondaryPct := answer.secondaryPct
    referencePct := answer.referencePct
    requestId := question.requestId
    followupOptions := followupRows.map (fun f => (f.fid, f.content)) }

/-- The replay query of `_find_existing_ask_response`: the question for
`(user, idempotency_key)` with status `"succeeded"`, if any. -/
def findSucceededQuestion (db : DB) (userId : Nat) (idempotencyKey : String) :
    Option Question :=
  db.questions.find? (fun q =>
    q.userId == userId && q.idempotencyKey == idempotencyKey &&
      q.status == "succeeded")

/-- The `select(Question.id)` re-query used by the replay branches of
`_execute_ask`. -/
def findSucceededQuestionId (db : DB) (userId : Nat) (idempotencyKey : String) :
    Option Nat :=
  (findSucceededQuestion db userId idempotencyKey).map (·.qid)

/-- The answer row of a question (`answers.question_id` is unique). -/
def findAnswer (db : DB) (questionId : Nat) : Option Answer :=
  db.answers.find? (fun a => a.questionId == questionId)

/-- `_find_existing_ask_response`: replay the stored response of a succeeded
question for `(user, idempotency_key)`; `none` when there is no such question
or it has no answer row. -/
def findExistingAskResponse (db : DB) (userId : Nat) (idempotencyKey : String) :
    Option AskResponse :=
  match findSucceededQuestion db userId idempotencyKey with
  | none => none
  | some question =>
    match findAnswer db question.qid with
    | none => none
    | some answer => some (toAskResponse db question answer)

/-- Balance of the user's row in a wallets table, `0` when no row exists. -/
def walletBalanceOf (ws : List CreditWallet) (userId : Nat) : Int :=
  ((ws.find? (fun w => w.userId == userId)).map (·.balance)).getD 0

/-- Balance of the user's wallet row, `0` when no row exists yet. -/
def walletBalance (db : DB) (userId : Nat) : Int :=
  walletBalanceOf db.wallets userId

/-- Whether a wallet row exists for the user. -/
def walletExists (db : DB) (userId : Nat) : Bool :=
  db.wallets.any (fun w => w.userId == userId)

/-- The in-place balance mutation `wallet.balance += delta` applied to one
row of the wallets table. -/
def applyWalletDelta (userId : Nat) (delta : Int) (w : CreditWallet) :
    CreditWallet :=
  if w.userId == userId then { w with balance := w.balance + delta } else w

/-- Add `delta` to the user's wallet balance, creating the row (lazily, as the
code does with `CreditWallet(user_id=..., balance=0)` before mutating it)
when absent. -/
def updateWallet (db : DB) (userId : Nat) (delta : Int) : DB :=
  if walletExists db userId then
    { db with wallets := db.wallets.map (applyWalletDelta userId delta) }
  else
    { db with wallets := db.wallets ++ [⟨userId, delta⟩] }

/-- The `(user, action, idempotency_key)` selector of the ledger queries. -/
def txMatch (userId : Nat) (action idempotencyKey : String)
    (t : CreditTransaction) : Bool :=
  t.userId == userId && t.action == action &&
    t.idempotencyKey == idempotencyKey

/-- Whether a ledger row with this `(user, action, idempotency_key)` triple
exists — the uniqueness constraint
`uq_credit_transactions_user_action_idempotency_key` used as the idempotency
guard. -/
def hasTxn (db : DB) (userId : Nat) (action idempotencyKey : String) : Bool :=
  db.transactions.any (txMatch userId action idempotencyKey)

/-- Number of ledger rows for `(user, action, idempotency_key)` in a
transactions table. -/
def txCountOf (ts : List CreditTransaction) (userId : Nat)
    (action idempotencyKey : String) : Nat :=
  (ts.filter (txMatch userId action idempotencyKey)).length

/-- Number of ledger rows for `(user, action, idempotency_key)`. -/
def txCount (db : DB) (userId : Nat) (action idempotencyKey : String) : Nat :=
  txCountOf db.transactions userId action idempotencyKey

/-- Whether any question row exists for `(user, idempotency_key)` — the
`uq_questions_user_id_idempotency_key` constraint, regardless of status. -/
def questionKeyExists (db : DB) (userId : Nat) (idempotencyKey : String) : Bool :=
  db.questions.any (fun q =>
    q.userId == userId && q.idempotencyKey == idempotencyKey)

/-- Request ids minted from the freshness counter (standing in for
`str(uuid4())`). -/
def mkRequestId (n : Nat) : String :=
  "req-" ++ toString n

/-- Python `str.split()` + `" ".join(...)`: collapse whitespace runs. -/
def normalizeWhitespace (s : String) : String :=
  " ".intercalate ((s.split Char.isWhitespace).filter (fun w => w ≠ ""))

/-- `_build_followup_contents`. -/
def buildFollowupContents (questionText : String) : List String :=
  let normalized := normalizeWhitespace questionText
  let subject := if normalized = "" then "這個主題" else normalized.take 40
  [ "若聚焦「" ++ subject ++ "」，最關鍵的原因是什麼？"
  , "延續「" ++ subject ++ "」，下一步最有效的行動是什麼？"
  , "針對「" ++ subject ++ "」，目前最大的風險與避坑建議是什麼？" ]

/-- One iteration of the creation loop of `_ensure_followups_for_question`:
skip the content when three are already accounted for or it duplicates an
existing one, otherwise append a pending followup row. -/
def ensureFollowupsStep (questionId userId : Nat) (requestId : String)
    (acc : DB × List String) (content : String) : DB × List String :=
  let (d, used) := acc
  if FOLLOWUP_OPTIONS_COUNT ≤ used.length then acc
  else if used.contains content then acc
  else
    ({ d with
        followups := d.followups ++
          [⟨d.nextId, questionId, userId, content, "pending", none,
            requestId⟩]
        nextId := d.nextId + 1 },
      used ++ [content])

/-- `_ensure_followups_for_question`: create up to three pending followups for
the question, skipping contents that already exist.  Returns the database with
the new rows appended (ids drawn from `nextId`). -/
def ensureFollowupsForQuestion (db : DB) (question : Question) (userId : Nat)
    (requestId : String) : DB :=
  let existing := db.followups.filter (fun f => f.questionId == question.qid)
  if FOLLOWUP_OPTIONS_COUNT ≤ existing.length then db
  else
    let usedContents := existing.map (·.content)
    ((buildFollowupContents question.questionText).foldl
      (ensureFollowupsStep question.qid userId requestId)
      (db, usedContents)).1

/-- The state committed by the reserve phase of `_execute_ask`: balance
decremented by the cost and a `reserve` transaction (amount `-cost`) in the
same atomic unit.  `nextId` is bumped for the minted request id. -/
def reserveCommit (db : DB) (userId : Nat) (idempotencyKey requestId : String) :
    DB :=
  let db1 := updateWallet db userId (-CREDIT_COST_PER_ASK)
  { db1 with
      transactions := db1.transactions ++
        [⟨userId, none, none, "reserve", -CREDIT_COST_PER_ASK, "ASK_RESERVED",
          idempotencyKey, requestId⟩]
      nextId := db1.nextId + 1 }

/-- The success bundle of `_execute_ask`: persist the succeeded question, its
answer, up to three followups and the `capture` transaction in one commit, and
return the assembled response. -/
def successBundle (db : DB) (userId : Nat)
    (questionText lang mode idempotencyKey requestId : String) :
    DB × AskResponse × Nat :=
  let qid := db.nextId
  let question : Question :=
    ⟨qid, userId, questionText, lang, mode, "succeeded", "mock", requestId,
      idempotencyKey⟩
  let answer : Answer :=
    ⟨qid, buildMockAnswerText questionText, 70, 20, 10⟩
  let db1 := { db with
    questions := db.questions ++ [question]
    answers := db.answers ++ [answer]
    nextId := db.nextId + 1 }
  let db2 := ensureFollowupsForQuestion db1 question userId requestId
  let db3 := { db2 with
    transactions := db2.transactions ++
      [⟨userId, some qid, none, "capture", -CREDIT_COST_PER_ASK, "ASK_CAPTURED",
        idempotencyKey, requestId⟩] }
  (db3, toAskResponse db3 question answer, qid)

/-- `_refund_reserved_credit`: if a `refund` transaction already exists for
`(user, idempotency_key)`, do nothing; otherwise increment the balance by the
cost and append a `refund` transaction (amount `+cost`) in one commit. -/
def refundReservedCredit (db : DB) (userId : Nat)
    (requestId idempotencyKey : String) (questionId : Option Nat := none) :
    DB :=
  if hasTxn db userId "refund" idempotencyKey then db
  else
    let db1 := updateWallet db userId CREDIT_COST_PER_ASK
    { db1 with
        transactions := db1.transactions ++
          [⟨userId, questionId, none, "refund", CREDIT_COST_PER_ASK,
            "ASK_REFUNDED", idempotencyKey, requestId⟩] }

/-- The `IntegrityError` handler of the reserve commit in `_execute_ask`:
after rolling back, re-run the replay check; return the stored response when a
succeeded question (with answer) now exists, otherwise report the 409
idempotency conflict.  The `askReplayFailed` arm mirrors the defensive 500 of
the code. -/
def onReserveConflict (db : DB) (userId : Nat) (idempotencyKey : String) :
    DB × Except AskError (AskResponse × Nat) :=
  match findExistingAskResponse db userId idempotencyKey with
  | some resp =>
    match findSucceededQuestionId db userId idempotencyKey with
    | some qid => (db, .ok (resp, qid))
    | none => (db, .error .askReplayFailed)
  | none => (db, .error .idempotencyConflict)

/-- `_execute_ask`.  `genOk = false` injects the environmental failure the
`try`/`except` around the success commit catches; a pre-existing
`(user, idempotency_key)` question row likewise makes that commit fail on the
questions uniqueness constraint. -/
def executeAsk (db : DB) (userId : Nat)
    (questionText lang mode idempotencyKey : String) (genOk : Bool) :
    DB × Except AskError (AskResponse × Nat) :=
  match findExistingAskResponse db userId idempotencyKey with
  | some resp =>
    match findSucceededQuestionId db userId idempotencyKey with
    | some qid => (db, .ok (resp, qid))
    | none => (db, .error .askReplayFailed)
  | none =>
    if walletBalance db userId < CREDIT_COST_PER_ASK then
      (db, .error .insufficientCredit)
    else if hasTxn db userId "reserve" idempotencyKey then
      onReserveConflict db userId idempotencyKey
    else
      let requestId := mkRequestId db.nextId
      let db1 := reserveCommit db userId idempotencyKey requestId
      if genOk && !questionKeyExists db1 userId idempotencyKey then
        let (db2, resp, qid) :=
          successBundle db1 userId questionText lang mode idempotencyKey
            requestId
        (db2, .ok (resp, qid))
      else
        (refundReservedCredit db1 userId requestId idempotencyKey,
          .error .askProcessingFailed)

/-- The error outcomes of `POST /followups/{id}/ask`. -/
inductive FollowupAskError where
  /-- 404 `FOLLOWUP_NOT_FOUND` -/
  | followupNotFound
  /-- 403 `FOLLOWUP_OWNER_MISMATCH` -/
  | ownerMismatch
  /-- 409 `FOLLOWUP_ALREADY_USED` -/
  | alreadyUsed
  /-- 404 `PARENT_QUESTION_NOT_FOUND` -/
  | parentQuestionNotFound
  /-- an error propagated from `_execute_ask` -/
  | ask (e : AskError)
  deriving Repr, DecidableEq

/-- Lookup of a followup row by id. -/
def findFollowup (db : DB) (fid : Nat) : Option Followup :=
  db.followups.find? (fun f => f.fid == fid)

/-- Lookup of a question row by id. -/
def findQuestion (db : DB) (qid : Nat) : Option Question :=
  db.questions.find? (fun q => q.qid == qid)

/-- Update a followup row in place. -/
def updateFollowup (db : DB) (fid : Nat) (upd : Followup → Followup) : DB :=
  { db with followups := db.followups.map (fun f =>
      if f.fid == fid then upd f else f) }

/-- `ask_followup` (`POST /followups/{id}/ask`): eagerly mark the followup
used, run `_execute_ask` keyed by `"followup:" ++ id`, restore the followup to
pending on failure (only when it has not been linked to a child), and link
`used_question_id` on success. -/
def askFollowup (db : DB) (userId fid : Nat) (genOk : Bool) :
    DB × Except FollowupAskError AskResponse :=
  match findFollowup db fid with
  | none => (db, .error .followupNotFound)
  | some followup =>
    if followup.userId ≠ userId then (db, .error .ownerMismatch)
    else if followup.status ≠ "pending" then (db, .error .alreadyUsed)
    else
      match findQuestion db followup.questionId with
      | none => (db, .error .parentQuestionNotFound)
      | some parentQuestion =>
        let db1 := updateFollowup db fid (fun f => { f with status := "used" })
        let key := "followup:" ++ toString fid
        match executeAsk db1 userId followup.content parentQuestion.lang
            parentQuestion.mode key genOk with
        | (db2, .error e) =>
          let db3 :=
            match findFollowup db2 fid with
            | some restore =>
              if restore.status = "used" ∧ restore.usedQuestionId = none then
                updateFollowup db2 fid (fun f => { f with status := "pending" })
              else db2
            | none => db2
          (db3, .error (.ask e))
        | (db2, .ok (resp, qid)) =>
          let db3 :=
            match findFollowup db2 fid with
            | some _ =>
              updateFollowup db2 fid (fun f =>
                { f with usedQuestionId := some qid })
            | none => db2
          (db3, .ok resp)

/-- The error outcomes of `simulate_order_paid` relevant to the credit core. -/
inductive OrderPaidError where
  /-- 404 `ORDER_NOT_FOUND` -/
  | orderNotFound
  /-- 409 `ORDER_STATUS_INVALID_FOR_PAYMENT` -/
  | orderStatusInvalid
  deriving Repr, DecidableEq

/-- `simulate_order_paid` (`POST /orders/{id}/simulate-paid`), the credit
grant path: lock the order, get-or-create the wallet, and — unless a
`purchase` transaction for `order:{id}:purchase` already exists — increase
the balance by the package size and append the `purchase` transaction, then
mark the order paid, all in one commit.  Returns the final balance. -/
def simulateOrderPaid (db : DB) (userId oid : Nat) :
    DB × Except OrderPaidError Int :=
  match db.orders.find? (fun o => o.oid == oid && o.userId == userId) with
  | none => (db, .error .orderNotFound)
  | some order =>
    if order.status = "paid" then (db, .ok (walletBalance db userId))
    else if order.status ≠ "pending" then (db, .error .orderStatusInvalid)
    else
      let key := "order:" ++ toString oid ++ ":purchase"
      let requestId := mkRequestId db.nextId
      let db1 :=
        if walletExists db userId then db
        else { db with wallets := db.wallets ++ [⟨userId, 0⟩] }
      let db2 :=
        if hasTxn db1 userId "purchase" key then db1
        else
          let dbW := updateWallet db1 userId (Int.ofNat order.packageSize)
          { dbW with
              transactions := dbW.transactions ++
                [⟨userId, none, some oid, "purchase", Int.ofNat order.packageSize,
                  "ORDER_PAID", key, requestId⟩]
              nextId := dbW.nextId + 1 }
      let db3 := { db2 with orders := db2.orders.map (fun o =>
          if o.oid == oid then { o with status := "paid" } else o) }
      (db3, .ok (walletBalance db3 userId))

/-- `_build_answer_preview`. -/
def buildAnswerPreview (answerText : String) : String :=
  if answerText.length ≤ ASK_HISTORY_PREVIEW_MAX_LENGTH then answerText
  else answerText.take ASK_HISTORY_PREVIEW_MAX_LENGTH ++ "..."

/-- The `used_question_id` values of the caller's followups (the subquery of
`get_ask_history`). -/
def usedChildIds (db : DB) (userId : Nat) : List Nat :=
  db.followups.filterMap (fun f =>
    if f.userId == userId then f.usedQuestionId else none)

/-- One row of the history index. -/
structure AskHistoryItem where
  questionId : Nat
  questionText : String
  answerPreview : String
  source : String
  chargedCredits : Nat
  deriving Repr, DecidableEq

/-- The user's `capture` transactions attached to a question. -/
def captureTxnsFor (db : DB) (userId qid : Nat) : List CreditTransaction :=
  db.transactions.filter (fun t =>
    t.userId == userId && t.action == "capture" && t.questionId == some qid)

/-- Sum of the user's `capture` transaction amounts attached to a question,
sign-normalized (`abs(...)` in the code). -/
def chargedCreditsFor (db : DB) (userId qid : Nat) : Nat :=
  ((captureTxnsFor db userId qid).foldl
    (fun (s : Int) (t : CreditTransaction) => s + t.amount) 0).natAbs

/-- The `Question ⋈ Answer` rows of `get_ask_history`, in ascending creation
order before the `DESC` ordering is applied: owned by the caller, status
`"succeeded"`, not the resolved child of any of the caller's followups, and
having an answer row (inner join). -/
def historyRows (db : DB) (userId : Nat) : List (Question × Answer) :=
  (db.questions.filter (fun q =>
      q.userId == userId && q.status == "succeeded" &&
        !(usedChildIds db userId).contains q.qid)).filterMap
    (fun q => (findAnswer db q.qid).map (fun a => (q, a)))

/-- `get_ask_history` (`GET /history/questions`): the thread-roots-only index,
newest first, with `offset`/`limit` pagination. -/
def getAskHistory (db : DB) (userId limit offset : Nat) : List AskHistoryItem :=
  (((historyRows db userId).reverse.drop offset).take limit).map
    (fun qa =>
      { questionId := qa.1.qid
        questionText := qa.1.questionText
        answerPreview := buildAnswerPreview qa.2.answerText
        source := qa.1.source
        chargedCredits := chargedCreditsFor db userId qa.1.qid })

/-- The `limit(1)` query of `_resolve_root_question_id`: the first followup of
the user (in `(created_at, id)` order) whose `used_question_id` is the current
question. -/
def findIncomingFollowup (fus : List Followup) (userId qid : Nat) :
    Option Followup :=
  fus.find? (fun f => f.userId == userId && f.usedQuestionId == some qid)

/-- The `while current_id not in visited` loop of `_resolve_root_question_id`,
with explicit fuel.  The boolean of the result records whether the loop exited
through the visited-set cycle guard (`true`) or by finding a question with no
incoming used followup (`false`).  Fuel exhaustion is reported as a
cycle-guard stop; `resolveRootQuestionId` supplies enough fuel for it never to
be reached. -/
def resolveRootAux (fus : List Followup) (userId : Nat) :
    Nat → Finset Nat → Nat → Nat × Bool
  | 0, _, currentId => (currentId, true)
  | fuel + 1, visited, currentId =>
    if currentId ∈ visited then (currentId, true)
    else
      match findIncomingFollowup fus userId currentId with
      | none => (currentId, false)
      | some parentFollowup =>
        resolveRootAux fus userId fuel (insert currentId visited)
          parentFollowup.questionId

/-- `_resolve_root_question_id`: walk to the root of the thread containing
`questionId`, guarded against cycles by the visited set. -/
def resolveRootQuestionId (db : DB) (userId questionId : Nat) : Nat :=
  (resolveRootAux db.followups userId (db.followups.length + 1) ∅ questionId).1

/-- Whether `_resolve_root_question_id` hit the cycle guard for this input. -/
def resolveRootCycled (db : DB) (userId questionId : Nat) : Bool :=
  (resolveRootAux db.followups userId (db.followups.length + 1) ∅ questionId).2

/-- The `Question ⋈ Answer` lookup of `get_ask_history_detail`: a question is
visible only when owned by the caller, succeeded, and joined to its answer. -/
def findVisibleQuestion (db : DB) (userId qid : Nat) :
    Option (Question × Answer) :=
  match db.questions.find? (fun q =>
      q.qid == qid && q.userId == userId && q.status == "succeeded") with
  | none => none
  | some q => (findAnswer db q.qid).map (fun a => (q, a))

/-- The root-resolution prefix of `get_ask_history_detail`: 404 (`none`) when
the requested question is not visible to the caller or the resolved root row
is not visible; otherwise the root id the thread tree is built from. -/
def getAskHistoryDetailRootId (db : DB) (userId questionId : Nat) :
    Option Nat :=
  match findVisibleQuestion db userId questionId with
  | none => none
  | some _ =>
    let rootId := resolveRootQuestionId db userId questionId
    match findVisibleQuestion db userId rootId with
    | none => none
    | some _ => some rootId

/-- Modelled from the spec: "the set of still-pending follow-up options
(ordered by creation time, capped at three)" — the value §4.3 says an ask
response carries, to be compared with what `_to_ask_response` computes. -/
def pendingFollowupOptions (db : DB) (questionId : Nat) : List (Nat × String) :=
  ((db.followups.filter (fun f =>
      f.questionId == questionId && f.status == "pending")).take
    FOLLOWUP_OPTIONS_COUNT).map (fun f => (f.fid, f.content))

/-- Every wallet row satisfies the `balance >= 0` storage constraint. -/
def NonNegBalances (db : DB) : Prop :=
  ∀ w ∈ db.wallets, 0 ≤ w.balance

/-- `user_id` is the primary key of `credit_wallets`: one row per user. -/
def WalletsOk (db : DB) : Prop :=
  (db.wallets.map (·.userId)).Nodup

/-- The ledger bookkeeping invariant of §4.2: per `(user, idempotency_key)`
at most one `reserve` row exists, and the `capture` and `refund` rows exactly
match the `reserve` rows (every reserve is matched by exactly one capture or
exactly one refund; no terminal effect exists without its reserve). -/
def ReserveMatched (db : DB) : Prop :=
  ∀ u : Nat, ∀ k : String,
    txCount db u "reserve" k ≤ 1 ∧
      txCount db u "capture" k + txCount db u "refund" k =
        txCount db u "reserve" k

/-- A user with two credits and an otherwise empty database. -/
def exampleBaseDb : DB :=
  { questions := [], answers := [], followups := [],
    wallets := [⟨1, 2⟩], transactions := [], orders := [], nextId := 0 }

/-- State after one successful ask with key `"K"` (question 1, followups
2, 3, 4; one reserve and one capture; balance 1). -/
def exampleSuccessDb : DB :=
  (executeAsk exampleBaseDb 1 "q" "zh" "analysis" "K" true).1

/-- State after additionally consuming followup 2 (child question 6;
followup 2 is now `"used"` with `used_question_id = 6`; balance 0). -/
def exampleThreadDb : DB :=
  (askFollowup exampleSuccessDb 1 2 true).1

/-- State after an ask with key `"K"` whose generation failed: one reserve
and one refund for `"K"`, balance restored to 2, no question row. -/
def exampleRefundedDb : DB :=
  (executeAsk exampleBaseDb 1 "q" "zh" "analysis" "K" false).1

section WalletLemmas

theorem applyWalletDelta_userId (u : Nat) (d : Int) (w : CreditWallet) :
    (applyWalletDelta u d w).userId = w.userId := by
  unfold applyWalletDelta; split <;> rfl

theorem applyWalletDelta_of_ne (u : Nat) (d : Int) (w : CreditWallet)
    (h : ¬(w.userId == u)) : applyWalletDelta u d w = w := by
  unfold applyWalletDelta; rw [if_neg h]

theorem find?_map_applyWalletDelta (ws : List CreditWallet) (u : Nat)
    (d : Int) :
    (ws.map (applyWalletDelta u d)).find? (fun w => w.userId == u) =
      (ws.find? (fun w => w.userId == u)).map (applyWalletDelta u d) := by
  induction ws with
  | nil => rfl
  | cons w ws ih =>
    rw [List.map_cons]
    by_cases h : ((w.userId == u) = true)
    · rw [List.find?_cons_of_pos (p := fun (w : CreditWallet) => w.userId == u) _ h,
        List.find?_cons_of_pos (p := fun (w : CreditWallet) => w.userId == u) _
          (by simpa [applyWalletDelta_userId] using h)]
      rfl
    · rw [List.find?_cons_of_neg (p := fun (w : CreditWallet) => w.userId == u) _ h,
        List.find?_cons_of_neg (p := fun (w : CreditWallet) => w.userId == u) _
          (by simpa [applyWalletDelta_userId] using h), ih]

theorem walletExists_iff_isSome (db : DB) (u : Nat) :
    walletExists db u = true ↔
      (db.wallets.find? (fun w => w.userId == u)).isSome := by
  unfold walletExists
  rw [List.any_eq_true, List.find?_isSome]

theorem find?_eq_none_of_not_exists (db : DB) (u : Nat)
    (h : walletExists db u = false) :
    db.wallets.find? (fun w => w.userId == u) = none := by
  rw [← Option.not_isSome_iff_eq_none, ← walletExists_iff_isSome, h]
  simp

theorem updateWallet_wallets_of_exists (db : DB) (u : Nat) (d : Int)
    (hex : walletExists db u = true) :
    (updateWallet db u d).wallets = db.wallets.map (applyWalletDelta u d) := by
  unfold updateWallet
  rw [if_pos hex]

theorem updateWallet_wallets_of_absent (db : DB) (u : Nat) (d : Int)
    (hex : walletExists db u = false) :
    (updateWallet db u d).wallets = db.wallets ++ [⟨u, d⟩] := by
  simp [updateWallet, hex]

/-- The balance read back after `wallet.balance += delta` and commit. -/
theorem walletBalance_updateWallet_self (db : DB) (u : Nat) (d : Int) :
    walletBalance (updateWallet db u d) u = walletBalance db u + d := by
  by_cases hex : walletExists db u = true
  · rw [walletBalance, updateWallet_wallets_of_exists db u d hex,
      walletBalanceOf, find?_map_applyWalletDelta]
    obtain ⟨w0, hw0⟩ :=
      Option.isSome_iff_exists.mp ((walletExists_iff_isSome db u).mp hex)
    have hpred := List.find?_some (p := fun (w : CreditWallet) => w.userId == u) hw0
    rw [hw0]
    have hbal : walletBalance db u = w0.balance := by
      rw [walletBalance, walletBalanceOf, hw0]; rfl
    rw [hbal]
    simp [applyWalletDelta, hpred]
  · have hex' : walletExists db u = false := by
      simpa using hex
    have hnone := find?_eq_none_of_not_exists db u hex'
    rw [walletBalance, updateWallet_wallets_of_absent db u d hex',
      walletBalanceOf, List.find?_append, hnone]
    have h0 : walletBalance db u = 0 := by
      rw [walletBalance, walletBalanceOf, hnone]; rfl
    rw [h0]
    simp

theorem nonneg_walletBalance (db : DB) (u : Nat) (h : NonNegBalances db) :
    0 ≤ walletBalance db u := by
  rw [walletBalance, walletBalanceOf]
  cases hf : db.wallets.find? (fun w => w.userId == u) with
  | none => simp
  | some w =>
    have hw : w ∈ db.wallets := List.mem_of_find?_eq_some hf
    simpa using h w hw

/-- Non-negativity is preserved by a balance mutation that keeps the mutated
user's balance non-negative, given one wallet row per user. -/
theorem nonneg_updateWallet (db : DB) (u : Nat) (d : Int)
    (hok : WalletsOk db) (hnn : NonNegBalances db)
    (hd : 0 ≤ walletBalance db u + d) :
    NonNegBalances (updateWallet db u d) := by
  by_cases hex : walletExists db u = true
  · intro w hw
    rw [updateWallet_wallets_of_exists db u d hex, List.mem_map] at hw
    obtain ⟨x, hx, hxe⟩ := hw
    by_cases hxu : ((x.userId == u) = true)
    · obtain ⟨w0, hw0⟩ :=
        Option.isSome_iff_exists.mp ((walletExists_iff_isSome db u).mp hex)
      have hpred := List.find?_some (p := fun (w : CreditWallet) => w.userId == u) hw0
      have hx0 : x = w0 := by
        apply List.inj_on_of_nodup_map hok hx
          (List.mem_of_find?_eq_some hw0)
        have h1 : x.userId = u := by simpa using hxu
        have h2 : w0.userId = u := by simpa using hpred
        rw [h1, h2]
      have hbal : walletBalance db u = w0.balance := by
        rw [walletBalance, walletBalanceOf, hw0]; rfl
      subst hxe
      rw [applyWalletDelta, if_pos hxu]
      show 0 ≤ x.balance + d
      rw [hx0, ← hbal]
      exact hd
    · subst hxe
      rw [applyWalletDelta_of_ne _ _ _ (by simpa using hxu)]
      exact hnn x hx
  · have hex' : walletExists db u = false := by simpa using hex
    intro w hw
    rw [updateWallet_wallets_of_absent db u d hex'] at hw
    rcases List.mem_append.mp hw with h | h
    · exact hnn w h
    · have hwd : w = ⟨u, d⟩ := by simpa using h
      subst hwd
      show 0 ≤ d
      have h0 : walletBalance db u = 0 := by
        rw [walletBalance, walletBalanceOf,
          find?_eq_none_of_not_exists db u hex']
        rfl
      rw [h0, zero_add] at hd
      exact hd

/-- One-row-per-user is preserved by balance mutation. -/
theorem walletsOk_updateWallet (db : DB) (u : Nat) (d : Int)
    (hok : WalletsOk db) : WalletsOk (updateWallet db u d) := by
  by_cases hex : walletExists db u = true
  · have hmap : (db.wallets.map (applyWalletDelta u d)).map (·.userId) =
        db.wallets.map (·.userId) := by
      rw [List.map_map]
      apply List.map_congr_left
      intro w _
      simp [applyWalletDelta_userId]
    rw [WalletsOk, updateWallet_wallets_of_exists db u d hex, hmap]
    exact hok
  · have hex' : walletExists db u = false := by simpa using hex
    rw [WalletsOk, updateWallet_wallets_of_absent db u d hex',
      List.map_append]
    apply List.Nodup.append hok (by simp)
    intro a ha hb
    have hb' : a = u := by simpa using hb
    subst hb'
    rw [List.mem_map] at ha
    obtain ⟨w, hw, hwe⟩ := ha
    have hcontra : walletExists db a = true := by
      rw [walletExists, List.any_eq_true]
      exact ⟨w, hw, by simpa using hwe⟩
    rw [hcontra] at hex'
    exact Bool.true_eq_false.mp hex'

end WalletLemmas

section LedgerLemmas

theorem hasTxn_false_iff_txCount_zero (db : DB) (u : Nat) (a k : String) :
    hasTxn db u a k = false ↔ txCount db u a k = 0 := by
  rw [hasTxn, txCount, txCountOf, List.any_eq_false, List.length_eq_zero,
    List.filter_eq_nil_iff]

theorem txCountOf_append (ts₁ ts₂ : List CreditTransaction) (u : Nat)
    (a k : String) :
    txCountOf (ts₁ ++ ts₂) u a k = txCountOf ts₁ u a k + txCountOf ts₂ u a k := by
  rw [txCountOf, txCountOf, txCountOf, List.filter_append, List.length_append]

theorem txCountOf_singleton_match (t : CreditTransaction) (u : Nat)
    (a k : String) (h : txMatch u a k t = true) : txCountOf [t] u a k = 1 := by
  rw [txCountOf, List.filter_singleton, h]
  rfl

theorem txCountOf_singleton_miss (t : CreditTransaction) (u : Nat)
    (a k : String) (h : txMatch u a k t = false) : txCountOf [t] u a k = 0 := by
  rw [txCountOf, List.filter_singleton, h]
  rfl

theorem txMatch_mk_true (u : Nat) (a k : String) (qi oi : Option Nat)
    (amt : Int) (rc rid : String) :
    txMatch u a k ⟨u, qi, oi, a, amt, rc, k, rid⟩ = true := by
  simp [txMatch]

/-- A freshly appended ledger row is counted only by its own triple. -/
theorem txMatch_mk_of_ne (u u' : Nat) (a a' k k' : String) (qi oi : Option Nat)
    (amt : Int) (rc rid : String)
    (h : ¬(u' = u ∧ a' = a ∧ k' = k)) :
    txMatch u' a' k' ⟨u, qi, oi, a, amt, rc, k, rid⟩ = false := by
  simp only [txMatch]
  simp only [Bool.and_eq_false_iff, beq_eq_false_iff_ne, ne_eq]
  by_cases h1 : u = u'
  · by_cases h2 : a = a'
    · by_cases h3 : k = k'
      · exact absurd ⟨h1.symm, h2.symm, h3.symm⟩ h
      · exact Or.inr h3
    · exact Or.inl (Or.inr h2)
  · exact Or.inl (Or.inl h1)

end LedgerLemmas

section ProjectionLemmas

theorem updateWallet_fields (db : DB) (u : Nat) (d : Int) :
    (updateWallet db u d).questions = db.questions ∧
      (updateWallet db u d).answers = db.answers ∧
      (updateWallet db u d).followups = db.followups ∧
      (updateWallet db u d).transactions = db.transactions ∧
      (updateWallet db u d).orders = db.orders ∧
      (updateWallet db u d).nextId = db.nextId := by
  unfold updateWallet
  split <;> exact ⟨rfl, rfl, rfl, rfl, rfl, rfl⟩

theorem reserveCommit_questions (db : DB) (u : Nat) (k r : String) :
    (reserveCommit db u k r).questions = db.questions := by
  rw [reserveCommit]
  exact (updateWallet_fields db u _).1

theorem reserveCommit_answers (db : DB) (u : Nat) (k r : String) :
    (reserveCommit db u k r).answers = db.answers := by
  rw [reserveCommit]
  exact (updateWallet_fields db u _).2.1

theorem reserveCommit_followups (db : DB) (u : Nat) (k r : String) :
    (reserveCommit db u k r).followups = db.followups := by
  rw [reserveCommit]
  exact (updateWallet_fields db u _).2.2.1

theorem reserveCommit_wallets (db : DB) (u : Nat) (k r : String) :
    (reserveCommit db u k r).wallets =
      (updateWallet db u (-CREDIT_COST_PER_ASK)).wallets := by
  rw [reserveCommit]

theorem reserveCommit_transactions (db : DB) (u : Nat) (k r : String) :
    (reserveCommit db u k r).transactions = db.transactions ++
      [⟨u, none, none, "reserve", -CREDIT_COST_PER_ASK, "ASK_RESERVED", k, r⟩] := by
  rw [reserveCommit]
  show (updateWallet db u _).transactions ++ _ = _
  rw [(updateWallet_fields db u _).2.2.2.1]

theorem reserveCommit_walletBalance (db : DB) (u : Nat) (k r : String) :
    walletBalance (reserveCommit db u k r) u =
      walletBalance db u - CREDIT_COST_PER_ASK := by
  have h1 : walletBalance (reserveCommit db u k r) u =
      walletBalance (updateWallet db u (-CREDIT_COST_PER_ASK)) u := by
    rw [walletBalance, walletBalance, reserveCommit_wallets]
  rw [h1, walletBalance_updateWallet_self]
  ring

theorem refund_eq_of_hasRefund (db : DB) (u : Nat) (r k : String)
    (q : Option Nat) (h : hasTxn db u "refund" k = true) :
    refundReservedCredit db u r k q = db := by
  rw [refundReservedCredit, if_pos h]

theorem refund_transactions_of_no_refund (db : DB) (u : Nat) (r k : String)
    (q : Option Nat) (h : hasTxn db u "refund" k = false) :
    (refundReservedCredit db u r k q).transactions = db.transactions ++
      [⟨u, q, none, "refund", CREDIT_COST_PER_ASK, "ASK_REFUNDED", k, r⟩] := by
  rw [refundReservedCredit, if_neg (by simp [h])]
  show (updateWallet db u _).transactions ++ _ = _
  rw [(updateWallet_fields db u _).2.2.2.1]

theorem refund_wallets_of_no_refund (db : DB) (u : Nat) (r k : String)
    (q : Option Nat) (h : hasTxn db u "refund" k = false) :
    (refundReservedCredit db u r k q).wallets =
      (updateWallet db u CREDIT_COST_PER_ASK).wallets := by
  rw [refundReservedCredit, if_neg (by simp [h])]

theorem refund_walletBalance_of_no_refund (db : DB) (u : Nat) (r k : String)
    (q : Option Nat) (h : hasTxn db u "refund" k = false) :
    walletBalance (refundReservedCredit db u r k q) u =
      walletBalance db u + CREDIT_COST_PER_ASK := by
  have h1 : walletBalance (refundReservedCredit db u r k q) u =
      walletBalance (updateWallet db u CREDIT_COST_PER_ASK) u := by
    rw [walletBalance, walletBalance, refund_wallets_of_no_refund db u r k q h]
  rw [h1, walletBalance_updateWallet_self]

theorem refund_questions (db : DB) (u : Nat) (r k : String) (q : Option Nat) :
    (refundReservedCredit db u r k q).questions = db.questions := by
  rw [refundReservedCredit]
  split
  · rfl
  · show (updateWallet db u _).questions = _
    rw [(updateWallet_fields db u _).1]

theorem ensureFollowupsStep_fields (qid u : Nat) (r : String)
    (acc : DB × List String) (c : String) :
    (ensureFollowupsStep qid u r acc c).1.questions = acc.1.questions ∧
      (ensureFollowupsStep qid u r acc c).1.answers = acc.1.answers ∧
      (ensureFollowupsStep qid u r acc c).1.wallets = acc.1.wallets ∧
      (ensureFollowupsStep qid u r acc c).1.transactions =
        acc.1.transactions ∧
      (ensureFollowupsStep qid u r acc c).1.orders = acc.1.orders := by
  obtain ⟨d, used⟩ := acc
  rw [ensureFollowupsStep]
  split
  · exact ⟨rfl, rfl, rfl, rfl, rfl⟩
  · split
    · exact ⟨rfl, rfl, rfl, rfl, rfl⟩
    · exact ⟨rfl, rfl, rfl, rfl, rfl⟩

theorem ensureFollowupsStep_foldl_fields (qid u : Nat) (r : String)
    (cs : List String) :
    ∀ acc : DB × List String,
      ((cs.foldl (ensureFollowupsStep qid u r) acc).1.questions =
          acc.1.questions ∧
        (cs.foldl (ensureFollowupsStep qid u r) acc).1.answers =
          acc.1.answers ∧
        (cs.foldl (ensureFollowupsStep qid u r) acc).1.wallets =
          acc.1.wallets ∧
        (cs.foldl (ensureFollowupsStep qid u r) acc).1.transactions =
          acc.1.transactions ∧
        (cs.foldl (ensureFollowupsStep qid u r) acc).1.orders =
          acc.1.orders) := by
  induction cs with
  | nil => intro acc; exact ⟨rfl, rfl, rfl, rfl, rfl⟩
  | cons c cs ih =>
    intro acc
    rw [List.foldl_cons]
    obtain ⟨h1, h2, h3, h4, h5⟩ := ih (ensureFollowupsStep qid u r acc c)
    obtain ⟨g1, g2, g3, g4, g5⟩ := ensureFollowupsStep_fields qid u r acc c
    exact ⟨h1.trans g1, h2.trans g2, h3.trans g3, h4.trans g4, h5.trans g5⟩

theorem ensureFollowups_fields (db : DB) (q : Question) (u : Nat)
    (r : String) :
    (ensureFollowupsForQuestion db q u r).questions = db.questions ∧
      (ensureFollowupsForQuestion db q u r).answers = db.answers ∧
      (ensureFollowupsForQuestion db q u r).wallets = db.wallets ∧
      (ensureFollowupsForQuestion db q u r).transactions = db.transactions ∧
      (ensureFollowupsForQuestion db q u r).orders = db.orders := by
  rw [ensureFollowupsForQuestion]
  split
  · exact ⟨rfl, rfl, rfl, rfl, rfl⟩
  · exact ensureFollowupsStep_foldl_fields q.qid u r _ _

theorem successBundle_wallets (db : DB) (u : Nat) (t l m k r : String) :
    (successBundle db u t l m k r).1.wallets = db.wallets := by
  rw [successBundle]
  show (ensureFollowupsForQuestion _ _ u r).wallets = db.wallets
  rw [(ensureFollowups_fields _ _ u r).2.2.1]

theorem successBundle_transactions (db : DB) (u : Nat) (t l m k r : String) :
    (successBundle db u t l m k r).1.transactions = db.transactions ++
      [⟨u, some db.nextId, none, "capture", -CREDIT_COST_PER_ASK,
        "ASK_CAPTURED", k, r⟩] := by
  rw [successBundle]
  show (ensureFollowupsForQuestion _ _ u r).transactions ++ _ = _
  rw [(ensureFollowups_fields _ _ u r).2.2.2.1]

theorem successBundle_questions (db : DB) (u : Nat) (t l m k r : String) :
    (successBundle db u t l m k r).1.questions = db.questions ++
      [⟨db.nextId, u, t, l, m, "succeeded", "mock", r, k⟩] := by
  rw [successBundle]
  show (ensureFollowupsForQuestion _ _ u r).questions = _
  rw [(ensureFollowups_fields _ _ u r).1]

theorem successBundle_result (db : DB) (u : Nat) (t l m k r : String) :
    (successBundle db u t l m k r).2.1 =
      toAskResponse (successBundle db u t l m k r).1
        ⟨db.nextId, u, t, l, m, "succeeded", "mock", r, k⟩
        ⟨db.nextId, buildMockAnswerText t, 70, 20, 10⟩ ∧
      (successBundle db u t l m k r).2.2 = db.nextId := by
  exact ⟨rfl, rfl⟩

end ProjectionLemmas

section ExecuteAskBranches

theorem questionKeyExists_congr (db db' : DB) (u : Nat) (k : String)
    (h : db'.questions = db.questions) :
    questionKeyExists db' u k = questionKeyExists db u k := by
  rw [questionKeyExists, questionKeyExists, h]

/-- Replay branch of `_execute_ask`: a stored succeeded question with its
answer short-circuits everything; the state is returned unchanged. -/
theorem executeAsk_replay (db : DB) (u : Nat) (t l m k : String) (g : Bool)
    (q : Question) (a : Answer)
    (hq : findSucceededQuestion db u k = some q)
    (ha : findAnswer db q.qid = some a) :
    executeAsk db u t l m k g = (db, .ok (toAskResponse db q a, q.qid)) := by
  have hresp : findExistingAskResponse db u k = some (toAskResponse db q a) := by
    simp only [findExistingAskResponse, hq, ha]
  have hid : findSucceededQuestionId db u k = some q.qid := by
    rw [findSucceededQuestionId, hq]
    rfl
  rw [executeAsk, hresp, hid]

/-- Insufficient-credit branch: rollback, no mutation. -/
theorem executeAsk_insufficient (db : DB) (u : Nat) (t l m k : String)
    (g : Bool) (hnone : findExistingAskResponse db u k = none)
    (hbal : walletBalance db u < CREDIT_COST_PER_ASK) :
    executeAsk db u t l m k g = (db, .error .insufficientCredit) := by
  rw [executeAsk, hnone]
  simp only
  rw [if_pos hbal]

/-- Duplicate-reserve branch: the reserve commit hits the
`(user, action, idempotency_key)` constraint and, with still no succeeded
question, reports the 409 conflict, leaving the state unchanged. -/
theorem executeAsk_conflict (db : DB) (u : Nat) (t l m k : String) (g : Bool)
    (hnone : findExistingAskResponse db u k = none)
    (hbal : ¬ walletBalance db u < CREDIT_COST_PER_ASK)
    (hres : hasTxn db u "reserve" k = true) :
    executeAsk db u t l m k g = (db, .error .idempotencyConflict) := by
  rw [executeAsk, hnone]
  simp only
  rw [if_neg hbal, if_pos hres, onReserveConflict, hnone]

/-- Successful-generation branch. -/
theorem executeAsk_success (db : DB) (u : Nat) (t l m k : String)
    (hnone : findExistingAskResponse db u k = none)
    (hbal : ¬ walletBalance db u < CREDIT_COST_PER_ASK)
    (hres : hasTxn db u "reserve" k = false)
    (hkey : questionKeyExists db u k = false) :
    executeAsk db u t l m k true =
      ((successBundle (reserveCommit db u k (mkRequestId db.nextId)) u t l m k
          (mkRequestId db.nextId)).1,
        .ok ((successBundle (reserveCommit db u k (mkRequestId db.nextId)) u
            t l m k (mkRequestId db.nextId)).2.1,
          (successBundle (reserveCommit db u k (mkRequestId db.nextId)) u
            t l m k (mkRequestId db.nextId)).2.2)) := by
  have hkey1 : questionKeyExists
      (reserveCommit db u k (mkRequestId db.nextId)) u k = false := by
    rw [questionKeyExists_congr db
      (reserveCommit db u k (mkRequestId db.nextId)) u k
      (reserveCommit_questions db u k (mkRequestId db.nextId))]
    exact hkey
  rw [executeAsk, hnone]
  simp only
  rw [if_neg hbal, if_neg (by simp [hres]), if_pos (by simp [hkey1])]

/-- Failed-generation branch: reserve committed, success bundle failed, the
compensating refund runs and the 500 surfaces. -/
theorem executeAsk_failure (db : DB) (u : Nat) (t l m k : String) (g : Bool)
    (hnone : findExistingAskResponse db u k = none)
    (hbal : ¬ walletBalance db u < CREDIT_COST_PER_ASK)
    (hres : hasTxn db u "reserve" k = false)
    (hfail : g = false ∨ questionKeyExists db u k = true) :
    executeAsk db u t l m k g =
      (refundReservedCredit (reserveCommit db u k (mkRequestId db.nextId)) u
        (mkRequestId db.nextId) k none,
        .error .askProcessingFailed) := by
  have hcond : (g && !questionKeyExists
      (reserveCommit db u k (mkRequestId db.nextId)) u k) = false := by
    rw [questionKeyExists_congr db
      (reserveCommit db u k (mkRequestId db.nextId)) u k
      (reserveCommit_questions db u k (mkRequestId db.nextId))]
    rcases hfail with h | h <;> simp [h]
  rw [executeAsk, hnone]
  simp only
  rw [if_neg hbal, if_neg (by simp [hres]), if_neg (by simp [hcond])]

end ExecuteAskBranches

section TxCountLemmas

theorem txCount_append_one (db' db : DB) (row : CreditTransaction)
    (h : db'.transactions = db.transactions ++ [row]) (u : Nat)
    (a k : String) :
    txCount db' u a k =
      txCount db u a k + (if txMatch u a k row then 1 else 0) := by
  rw [txCount, txCount, h, txCountOf_append]
  congr 1
  by_cases hm : txMatch u a k row = true
  · rw [txCountOf_singleton_match _ _ _ _ hm, if_pos hm]
  · have hm' : txMatch u a k row = false := by simpa using hm
    rw [txCountOf_singleton_miss _ _ _ _ hm', if_neg (by simp [hm'])]

theorem txCount_congr (db' db : DB)
    (h : db'.transactions = db.transactions) (u : Nat) (a k : String) :
    txCount db' u a k = txCount db u a k := by
  rw [txCount, txCount, h]

theorem txCount_reserveCommit (db : DB) (u : Nat) (k r : String) (u' : Nat)
    (a' k' : String) :
    txCount (reserveCommit db u k r) u' a' k' =
      txCount db u' a' k' +
        (if u' = u ∧ a' = "reserve" ∧ k' = k then 1 else 0) := by
  rw [txCount_append_one (reserveCommit db u k r) db _
    (reserveCommit_transactions db u k r)]
  congr 1
  by_cases h : u' = u ∧ a' = "reserve" ∧ k' = k
  · obtain ⟨h1, h2, h3⟩ := h
    rw [h1, h2, h3, if_pos (txMatch_mk_true u "reserve" k none none _ _ _),
      if_pos (⟨rfl, rfl, rfl⟩ : u = u ∧ "reserve" = "reserve" ∧ k = k)]
  · rw [if_neg (by simp [txMatch_mk_of_ne u u' "reserve" a' k k' none none
      _ _ _ h]), if_neg h]

theorem txCount_successBundle (db : DB) (u : Nat) (t l m k r : String)
    (u' : Nat) (a' k' : String) :
    txCount (successBundle db u t l m k r).1 u' a' k' =
      txCount db u' a' k' +
        (if u' = u ∧ a' = "capture" ∧ k' = k then 1 else 0) := by
  rw [txCount_append_one (successBundle db u t l m k r).1 db _
    (successBundle_transactions db u t l m k r)]
  congr 1
  by_cases h : u' = u ∧ a' = "capture" ∧ k' = k
  · obtain ⟨h1, h2, h3⟩ := h
    rw [h1, h2, h3, if_pos (txMatch_mk_true u "capture" k _ none _ _ _),
      if_pos (⟨rfl, rfl, rfl⟩ : u = u ∧ "capture" = "capture" ∧ k = k)]
  · rw [if_neg (by simp [txMatch_mk_of_ne u u' "capture" a' k k' _ none
      _ _ _ h]), if_neg h]

theorem txCount_refund_of_no_refund (db : DB) (u : Nat) (r k : String)
    (q : Option Nat) (h : hasTxn db u "refund" k = false) (u' : Nat)
    (a' k' : String) :
    txCount (refundReservedCredit db u r k q) u' a' k' =
      txCount db u' a' k' +
        (if u' = u ∧ a' = "refund" ∧ k' = k then 1 else 0) := by
  rw [txCount_append_one (refundReservedCredit db u r k q) db _
    (refund_transactions_of_no_refund db u r k q h)]
  congr 1
  by_cases hc : u' = u ∧ a' = "refund" ∧ k' = k
  · obtain ⟨h1, h2, h3⟩ := hc
    rw [h1, h2, h3, if_pos (txMatch_mk_true u "refund" k _ none _ _ _),
      if_pos (⟨rfl, rfl, rfl⟩ : u = u ∧ "refund" = "refund" ∧ k = k)]
  · rw [if_neg (by simp [txMatch_mk_of_ne u u' "refund" a' k k' _ none
      _ _ _ hc]), if_neg hc]

/-- After the reserve, every continuation of `_execute_ask` leaves the
reserve row count for the key increased by exactly one. -/
theorem txCount_executeAsk_reserve (db : DB) (u : Nat) (t l m k : String)
    (g : Bool) (hnone : findExistingAskResponse db u k = none)
    (hbal : ¬ walletBalance db u < CREDIT_COST_PER_ASK)
    (hres : hasTxn db u "reserve" k = false) :
    txCount (executeAsk db u t l m k g).1 u "reserve" k =
      txCount db u "reserve" k + 1 := by
  set r := mkRequestId db.nextId with hr
  by_cases hgo : g = true ∧ questionKeyExists db u k = false
  · obtain ⟨hg, hk⟩ := hgo
    subst hg
    rw [executeAsk_success db u t l m k hnone hbal hres hk]
    show txCount (successBundle (reserveCommit db u k r) u t l m k r).1
      u "reserve" k = _
    rw [txCount_successBundle, if_neg (by simp), txCount_reserveCommit,
      if_pos ⟨rfl, rfl, rfl⟩]
  · have hfail : g = false ∨ questionKeyExists db u k = true := by
      by_cases hg : g = true
      · by_cases hk : questionKeyExists db u k = true
        · exact Or.inr hk
        · exact absurd ⟨hg, by simpa using hk⟩ hgo
      · exact Or.inl (by simpa using hg)
    rw [executeAsk_failure db u t l m k g hnone hbal hres hfail]
    show txCount (refundReservedCredit (reserveCommit db u k r) u r k none)
      u "reserve" k = _
    by_cases hrf : hasTxn (reserveCommit db u k r) u "refund" k = true
    · rw [refund_eq_of_hasRefund _ u r k none hrf, txCount_reserveCommit,
        if_pos ⟨rfl, rfl, rfl⟩]
    · rw [txCount_refund_of_no_refund _ u r k none (by simpa using hrf),
        if_neg (by simp), txCount_reserveCommit, if_pos ⟨rfl, rfl, rfl⟩]

end TxCountLemmas

section ReserveMatchedLemmas

theorem hasTxn_congr_of_txCount (db' db : DB) (u : Nat) (a k : String)
    (h : txCount db' u a k = txCount db u a k) :
    hasTxn db' u a k = hasTxn db u a k := by
  cases hb : hasTxn db u a k
  · have h0 : txCount db u a k = 0 :=
      (hasTxn_false_iff_txCount_zero db u a k).mp hb
    exact (hasTxn_false_iff_txCount_zero db' u a k).mpr (h.trans h0)
  · by_contra hne
    have hb' : hasTxn db' u a k = false := by
      cases hx : hasTxn db' u a k
      · rfl
      · rw [hx] at hne; exact absurd rfl hne
    have h0' : txCount db' u a k = 0 :=
      (hasTxn_false_iff_txCount_zero db' u a k).mp hb'
    have h0 : txCount db u a k = 0 := h.symm.trans h0'
    have : hasTxn db u a k = false :=
      (hasTxn_false_iff_txCount_zero db u a k).mpr h0
    rw [hb] at this
    exact Bool.true_eq_false.mp this

/-- The replay branch leaves the state untouched, whichever sub-arm fires. -/
theorem executeAsk_state_of_replay (db : DB) (u : Nat) (t l m k : String)
    (g : Bool) (resp : AskResponse)
    (hfe : findExistingAskResponse db u k = some resp) :
    (executeAsk db u t l m k g).1 = db := by
  rw [executeAsk, hfe]
  cases hid : findSucceededQuestionId db u k <;> simp

/-- Success branch preserves the reserve/capture/refund matching. -/
theorem reserveMatched_success (db : DB) (u : Nat) (t l m k r : String)
    (hres : hasTxn db u "reserve" k = false) (hm : ReserveMatched db) :
    ReserveMatched
      (successBundle (reserveCommit db u k r) u t l m k r).1 := by
  intro u' k'
  have h0 : txCount db u "reserve" k = 0 :=
    (hasTxn_false_iff_txCount_zero db u "reserve" k).mp hres
  obtain ⟨hm1, hm2⟩ := hm u' k'
  obtain ⟨hm1u, hm2u⟩ := hm u k
  have eR := txCount_successBundle (reserveCommit db u k r) u t l m k r
    u' "reserve" k'
  have eR2 := txCount_reserveCommit db u k r u' "reserve" k'
  have eC := txCount_successBundle (reserveCommit db u k r) u t l m k r
    u' "capture" k'
  have eC2 := txCount_reserveCommit db u k r u' "capture" k'
  have eF := txCount_successBundle (reserveCommit db u k r) u t l m k r
    u' "refund" k'
  have eF2 := txCount_reserveCommit db u k r u' "refund" k'
  rw [if_neg (fun hh => absurd hh.2.1 (by decide))] at eR
  rw [if_neg (fun hh => absurd hh.2.1 (by decide))] at eC2
  rw [if_neg (fun hh => absurd hh.2.1 (by decide))] at eF
  rw [if_neg (fun hh => absurd hh.2.1 (by decide))] at eF2
  by_cases hc : u' = u ∧ k' = k
  · obtain ⟨h1, h2⟩ := hc
    rw [h1, h2] at eR2 eC ⊢
    rw [if_pos ⟨rfl, rfl, rfl⟩] at eR2
    rw [if_pos ⟨rfl, rfl, rfl⟩] at eC
    rw [h1, h2] at eR eC2 eF eF2 hm1 hm2
    constructor
    · omega
    · omega
  · have hneg : ∀ a0 : String, ¬(u' = u ∧ a0 = a0 ∧ k' = k) := by
      intro a0 hh
      exact hc ⟨hh.1, hh.2.2⟩
    rw [if_neg (hneg "reserve")] at eR2
    rw [if_neg (hneg "capture")] at eC
    exact ⟨by omega, by omega⟩

/-- Failure branch (refund) preserves the reserve/capture/refund matching. -/
theorem reserveMatched_failure (db : DB) (u : Nat) (k r : String)
    (hres : hasTxn db u "reserve" k = false) (hm : ReserveMatched db) :
    ReserveMatched
      (refundReservedCredit (reserveCommit db u k r) u r k none) := by
  have h0 : txCount db u "reserve" k = 0 :=
    (hasTxn_false_iff_txCount_zero db u "reserve" k).mp hres
  obtain ⟨_, hm2u⟩ := hm u k
  have hf0 : txCount db u "refund" k = 0 := by omega
  have hf1 : txCount (reserveCommit db u k r) u "refund" k =
      txCount db u "refund" k := by
    rw [txCount_reserveCommit, if_neg (fun hh => absurd hh.2.1 (by decide)),
      Nat.add_zero]
  have hrf : hasTxn (reserveCommit db u k r) u "refund" k = false := by
    exact (hasTxn_false_iff_txCount_zero _ u "refund" k).mpr
      (hf1.trans hf0)
  intro u' k'
  obtain ⟨hm1, hm2⟩ := hm u' k'
  have eR := txCount_refund_of_no_refund (reserveCommit db u k r) u r k none
    hrf u' "reserve" k'
  have eR2 := txCount_reserveCommit db u k r u' "reserve" k'
  have eC := txCount_refund_of_no_refund (reserveCommit db u k r) u r k none
    hrf u' "capture" k'
  have eC2 := txCount_reserveCommit db u k r u' "capture" k'
  have eF := txCount_refund_of_no_refund (reserveCommit db u k r) u r k none
    hrf u' "refund" k'
  have eF2 := txCount_reserveCommit db u k r u' "refund" k'
  rw [if_neg (fun hh => absurd hh.2.1 (by decide))] at eR
  rw [if_neg (fun hh => absurd hh.2.1 (by decide))] at eC
  rw [if_neg (fun hh => absurd hh.2.1 (by decide))] at eC2
  rw [if_neg (fun hh => absurd hh.2.1 (by decide))] at eF2
  by_cases hc : u' = u ∧ k' = k
  · obtain ⟨h1, h2⟩ := hc
    rw [h1, h2] at eR2 eF ⊢
    rw [if_pos ⟨rfl, rfl, rfl⟩] at eR2
    rw [if_pos ⟨rfl, rfl, rfl⟩] at eF
    rw [h1, h2] at eR eC eC2 eF2 hm1 hm2
    exact ⟨by omega, by omega⟩
  · have hneg : ∀ a0 : String, ¬(u' = u ∧ a0 = a0 ∧ k' = k) := by
      intro a0 hh
      exact hc ⟨hh.1, hh.2.2⟩
    rw [if_neg (hneg "reserve")] at eR2
    rw [if_neg (hneg "refund")] at eF
    exact ⟨by omega, by omega⟩

/-- `_execute_ask` preserves the ledger matching invariant, whatever branch
it takes and whatever the generation oracle does. -/
theorem reserveMatched_executeAsk (db : DB) (u : Nat) (t l m k : String)
    (g : Bool) (hm : ReserveMatched db) :
    ReserveMatched (executeAsk db u t l m k g).1 := by
  cases hfe : findExistingAskResponse db u k with
  | some resp =>
    rw [executeAsk_state_of_replay db u t l m k g resp hfe]
    exact hm
  | none =>
    by_cases hbal : walletBalance db u < CREDIT_COST_PER_ASK
    · rw [executeAsk_insufficient db u t l m k g hfe hbal]
      exact hm
    · by_cases hres : hasTxn db u "reserve" k = true
      · rw [executeAsk_conflict db u t l m k g hfe hbal hres]
        exact hm
      · have hres' : hasTxn db u "reserve" k = false := by simpa using hres
        by_cases hgo : g = true ∧ questionKeyExists db u k = false
        · obtain ⟨hg, hk⟩ := hgo
          subst hg
          rw [executeAsk_success db u t l m k hfe hbal hres' hk]
          exact reserveMatched_success db u t l m k _ hres' hm
        · have hfail : g = false ∨ questionKeyExists db u k = true := by
            by_cases hg : g = true
            · by_cases hke : questionKeyExists db u k = true
              · exact Or.inr hke
              · exact absurd ⟨hg, by simpa using hke⟩ hgo
            · exact Or.inl (by simpa using hg)
          rw [executeAsk_failure db u t l m k g hfe hbal hres' hfail]
          exact reserveMatched_failure db u k _ hres' hm

end ReserveMatchedLemmas

section NonNegLemmas

theorem nonneg_congr (db' db : DB) (h : db'.wallets = db.wallets)
    (hnn : NonNegBalances db) : NonNegBalances db' := by
  intro w hw
  rw [h] at hw
  exact hnn w hw

theorem walletsOk_congr (db' db : DB) (h : db'.wallets = db.wallets)
    (hok : WalletsOk db) : WalletsOk db' := by
  rw [WalletsOk, h]
  exact hok

theorem cost_eq_one : CREDIT_COST_PER_ASK = 1 := rfl

theorem nonneg_walletsOk_reserveCommit (db : DB) (u : Nat) (k r : String)
    (hok : WalletsOk db) (hnn : NonNegBalances db)
    (hbal : ¬ walletBalance db u < CREDIT_COST_PER_ASK) :
    WalletsOk (reserveCommit db u k r) ∧
      NonNegBalances (reserveCommit db u k r) := by
  have hd : 0 ≤ walletBalance db u + -CREDIT_COST_PER_ASK := by
    rw [cost_eq_one] at hbal ⊢
    omega
  exact ⟨walletsOk_congr _ _ (reserveCommit_wallets db u k r)
      (walletsOk_updateWallet db u _ hok),
    nonneg_congr _ _ (reserveCommit_wallets db u k r)
      (nonneg_updateWallet db u _ hok hnn hd)⟩

theorem nonneg_walletsOk_refund (db : DB) (u : Nat) (r k : String)
    (qo : Option Nat) (hok : WalletsOk db) (hnn : NonNegBalances db) :
    WalletsOk (refundReservedCredit db u r k qo) ∧
      NonNegBalances (refundReservedCredit db u r k qo) := by
  by_cases hrf : hasTxn db u "refund" k = true
  · rw [refund_eq_of_hasRefund db u r k qo hrf]
    exact ⟨hok, hnn⟩
  · have hrf' : hasTxn db u "refund" k = false := by simpa using hrf
    have hd : 0 ≤ walletBalance db u + CREDIT_COST_PER_ASK := by
      have := nonneg_walletBalance db u hnn
      rw [cost_eq_one]
      omega
    exact ⟨walletsOk_congr _ _ (refund_wallets_of_no_refund db u r k qo hrf')
        (walletsOk_updateWallet db u _ hok),
      nonneg_congr _ _ (refund_wallets_of_no_refund db u r k qo hrf')
        (nonneg_updateWallet db u _ hok hnn hd)⟩

/-- `_execute_ask` keeps every wallet balance non-negative and the
one-row-per-user shape, in every branch. -/
theorem nonneg_walletsOk_executeAsk (db : DB) (u : Nat) (t l m k : String)
    (g : Bool) (hok : WalletsOk db) (hnn : NonNegBalances db) :
    WalletsOk (executeAsk db u t l m k g).1 ∧
      NonNegBalances (executeAsk db u t l m k g).1 := by
  cases hfe : findExistingAskResponse db u k with
  | some resp =>
    rw [executeAsk_state_of_replay db u t l m k g resp hfe]
    exact ⟨hok, hnn⟩
  | none =>
    by_cases hbal : walletBalance db u < CREDIT_COST_PER_ASK
    · rw [executeAsk_insufficient db u t l m k g hfe hbal]
      exact ⟨hok, hnn⟩
    · by_cases hres : hasTxn db u "reserve" k = true
      · rw [executeAsk_conflict db u t l m k g hfe hbal hres]
        exact ⟨hok, hnn⟩
      · have hres' : hasTxn db u "reserve" k = false := by simpa using hres
        obtain ⟨hok1, hnn1⟩ :=
          nonneg_walletsOk_reserveCommit db u k (mkRequestId db.nextId)
            hok hnn hbal
        by_cases hgo : g = true ∧ questionKeyExists db u k = false
        · obtain ⟨hg, hk⟩ := hgo
          subst hg
          rw [executeAsk_success db u t l m k hfe hbal hres' hk]
          have hw := successBundle_wallets
            (reserveCommit db u k (mkRequestId db.nextId)) u t l m k
            (mkRequestId db.nextId)
          exact ⟨walletsOk_congr _ _ hw hok1, nonneg_congr _ _ hw hnn1⟩
        · have hfail : g = false ∨ questionKeyExists db u k = true := by
            by_cases hg : g = true
            · by_cases hke : questionKeyExists db u k = true
              · exact Or.inr hke
              · exact absurd ⟨hg, by simpa using hke⟩ hgo
            · exact Or.inl (by simpa using hg)
          rw [executeAsk_failure db u t l m k g hfe hbal hres' hfail]
          exact nonneg_walletsOk_refund _ u _ k none hok1 hnn1

theorem updateFollowup_wallets (db : DB) (fid : Nat)
    (upd : Followup → Followup) :
    (updateFollowup db fid upd).wallets = db.wallets := rfl

/-- `ask_followup` keeps every wallet balance non-negative. -/
theorem nonneg_walletsOk_askFollowup (db : DB) (u fid : Nat) (g : Bool)
    (hok : WalletsOk db) (hnn : NonNegBalances db) :
    WalletsOk (askFollowup db u fid g).1 ∧
      NonNegBalances (askFollowup db u fid g).1 := by
  rw [askFollowup]
  cases hf : findFollowup db fid with
  | none => exact ⟨hok, hnn⟩
  | some followup =>
    simp only
    by_cases h1 : followup.userId ≠ u
    · rw [if_pos h1]
      exact ⟨hok, hnn⟩
    · rw [if_neg h1]
      by_cases h2 : followup.status ≠ "pending"
      · rw [if_pos h2]
        exact ⟨hok, hnn⟩
      · rw [if_neg h2]
        cases hpq : findQuestion db followup.questionId with
        | none => exact ⟨hok, hnn⟩
        | some parentQuestion =>
          simp only
          have hok1 : WalletsOk
              (updateFollowup db fid (fun f => { f with status := "used" })) :=
            walletsOk_congr _ _ (updateFollowup_wallets db fid _) hok
          have hnn1 : NonNegBalances
              (updateFollowup db fid (fun f => { f with status := "used" })) :=
            nonneg_congr _ _ (updateFollowup_wallets db fid _) hnn
          obtain ⟨hok2, hnn2⟩ := nonneg_walletsOk_executeAsk
            (updateFollowup db fid (fun f => { f with status := "used" }))
            u followup.content parentQuestion.lang parentQuestion.mode
            ("followup:" ++ toString fid) g hok1 hnn1
          cases hea : executeAsk
              (updateFollowup db fid (fun f => { f with status := "used" }))
              u followup.content parentQuestion.lang parentQuestion.mode
              ("followup:" ++ toString fid) g with
          | mk db2 res =>
            rw [hea] at hok2 hnn2
            cases res with
            | error e =>
              simp only
              cases hre : findFollowup db2 fid with
              | none => exact ⟨hok2, hnn2⟩
              | some restore =>
                simp only
                split
                · exact ⟨walletsOk_congr _ _
                      (updateFollowup_wallets db2 fid _) hok2,
                    nonneg_congr _ _ (updateFollowup_wallets db2 fid _) hnn2⟩
                · exact ⟨hok2, hnn2⟩
            | ok pr =>
              cases pr with
              | mk resp qid =>
                simp only
                cases hre : findFollowup db2 fid with
                | none => exact ⟨hok2, hnn2⟩
                | some tracked =>
                  exact ⟨walletsOk_congr _ _
                      (updateFollowup_wallets db2 fid _) hok2,
                    nonneg_congr _ _ (updateFollowup_wallets db2 fid _) hnn2⟩

/-- `simulate_order_paid` keeps every wallet balance non-negative. -/
theorem nonneg_walletsOk_simulateOrderPaid (db : DB) (u oid : Nat)
    (hok : WalletsOk db) (hnn : NonNegBalances db) :
    WalletsOk (simulateOrderPaid db u oid).1 ∧
      NonNegBalances (simulateOrderPaid db u oid).1 := by
  rw [simulateOrderPaid]
  cases ho : db.orders.find? (fun o => o.oid == oid && o.userId == u) with
  | none => exact ⟨hok, hnn⟩
  | some order =>
    simp only
    by_cases h1 : order.status = "paid"
    · rw [if_pos h1]
      exact ⟨hok, hnn⟩
    · rw [if_neg h1]
      by_cases h2 : order.status ≠ "pending"
      · rw [if_pos h2]
        exact ⟨hok, hnn⟩
      · rw [if_neg h2]
        simp only
        set db1 := if walletExists db u then db
          else { db with wallets := db.wallets ++ [⟨u, 0⟩] } with hdb1
        have hmk : ∀ hex : walletExists db u = false,
            ({ db with wallets := db.wallets ++ [⟨u, 0⟩] } : DB) =
              updateWallet db u 0 := by
          intro hex
          rw [updateWallet, if_neg (by simp [hex])]
        have hok1 : WalletsOk db1 := by
          rw [hdb1]
          by_cases hex : walletExists db u = true
          · rw [if_pos hex]; exact hok
          · have hex' : walletExists db u = false := by simpa using hex
            rw [if_neg (by simp [hex']), hmk hex']
            exact walletsOk_updateWallet db u 0 hok
        have hnn1 : NonNegBalances db1 := by
          rw [hdb1]
          by_cases hex : walletExists db u = true
          · rw [if_pos hex]; exact hnn
          · have hex' : walletExists db u = false := by simpa using hex
            rw [if_neg (by simp [hex']), hmk hex']
            exact nonneg_updateWallet db u 0 hok hnn
              (by have := nonneg_walletBalance db u hnn; omega)
        by_cases h3 : hasTxn db1 u "purchase"
            ("order:" ++ toString oid ++ ":purchase") = true
        · rw [if_pos h3]
          exact ⟨hok1, hnn1⟩
        · rw [if_neg h3]
          have hok2 : WalletsOk
              (updateWallet db1 u (Int.ofNat order.packageSize)) :=
            walletsOk_updateWallet db1 u _ hok1
          have hnn2 : NonNegBalances
              (updateWallet db1 u (Int.ofNat order.packageSize)) := by
            apply nonneg_updateWallet db1 u _ hok1 hnn1
            have h4 := nonneg_walletBalance db1 u hnn1
            have h5 : (0 : Int) ≤ Int.ofNat order.packageSize :=
              Int.ofNat_nonneg _
            omega
          exact ⟨hok2, hnn2⟩

end NonNegLemmas

section RootResolutionLemmas

/-- A revisited id stops the walk immediately (cycle guard), at any fuel. -/
theorem resolveRootAux_of_mem (fus : List Followup) (uid : Nat) :
    ∀ m : Nat, ∀ visited : Finset Nat, ∀ cur : Nat, cur ∈ visited →
      resolveRootAux fus uid m visited cur = (cur, true) := by
  intro m visited cur h
  cases m with
  | zero => rfl
  | succ m => simp [resolveRootAux, h]

/-- Beyond the number of distinct not-yet-visited parent ids, extra fuel
does not change the walk: each iteration consumes one unvisited parent. -/
theorem resolveRootAux_fuel_step (fus : List Followup) (uid : Nat) :
    ∀ k : Nat, ∀ visited : Finset Nat, ∀ cur : Nat,
      ((fus.map (·.questionId)).toFinset \ insert cur visited).card ≤ k →
        resolveRootAux fus uid (k + 1) visited cur =
          resolveRootAux fus uid (k + 2) visited cur := by
  intro k
  induction k using Nat.strong_induction_on with
  | _ k ih =>
    intro visited cur hk
    by_cases hv : cur ∈ visited
    · rw [resolveRootAux_of_mem fus uid (k + 1) visited cur hv,
        resolveRootAux_of_mem fus uid (k + 2) visited cur hv]
    · simp only [resolveRootAux, if_neg hv]
      cases hfi : findIncomingFollowup fus uid cur with
      | none => rfl
      | some f =>
        show resolveRootAux fus uid k (insert cur visited) f.questionId =
          resolveRootAux fus uid (k + 1) (insert cur visited) f.questionId
        by_cases hnx : f.questionId ∈ insert cur visited
        · rw [resolveRootAux_of_mem fus uid k _ _ hnx,
            resolveRootAux_of_mem fus uid (k + 1) _ _ hnx]
        · have hfmem : f ∈ fus := List.mem_of_find?_eq_some hfi
          have hnp : f.questionId ∈ (fus.map (·.questionId)).toFinset := by
            rw [List.mem_toFinset]
            exact List.mem_map_of_mem _ hfmem
          have hin : f.questionId ∈
              (fus.map (·.questionId)).toFinset \ insert cur visited :=
            Finset.mem_sdiff.mpr ⟨hnp, hnx⟩
          have hpos : 0 <
              ((fus.map (·.questionId)).toFinset \ insert cur visited).card :=
            Finset.card_pos.mpr ⟨_, hin⟩
          obtain ⟨k', rfl⟩ : ∃ k', k = k' + 1 := ⟨k - 1, by omega⟩
          apply ih k' (by omega)
          rw [Finset.sdiff_insert, Finset.card_erase_of_mem hin]
          omega

/-- Termination content of the cycle guard: the fuel chosen by
`resolveRootQuestionId` (`|followups| + 1`) already reaches the fixpoint of
the walk — any extra fuel computes the same root, on every input, cyclic
malformed data included. -/
theorem resolveRootAux_fuel_stable (fus : List Followup) (uid q : Nat) :
    ∀ extra : Nat,
      resolveRootAux fus uid (fus.length + 1 + extra) ∅ q =
        resolveRootAux fus uid (fus.length + 1) ∅ q := by
  have hcard : ∀ e : Nat,
      ((fus.map (·.questionId)).toFinset \ insert q ∅).card ≤
        fus.length + e := by
    intro e
    have h1 := Finset.card_le_card
      (Finset.sdiff_subset (s := (fus.map (·.questionId)).toFinset)
        (t := insert q ∅))
    have h2 := List.toFinset_card_le (fus.map (·.questionId))
    rw [List.length_map] at h2
    omega
  intro extra
  induction extra with
  | zero => rfl
  | succ e ih =>
    have hstep := resolveRootAux_fuel_step fus uid (fus.length + e) ∅ q
      (hcard e)
    calc resolveRootAux fus uid (fus.length + 1 + (e + 1)) ∅ q
        = resolveRootAux fus uid (fus.length + e + 2) ∅ q := by
          congr 1
          omega
      _ = resolveRootAux fus uid (fus.length + e + 1) ∅ q := hstep.symm
      _ = resolveRootAux fus uid (fus.length + 1 + e) ∅ q := by
          congr 1
          omega
      _ = resolveRootAux fus uid (fus.length + 1) ∅ q := ih

/-- When the walk exits without hitting the cycle guard, its result has no
incoming used followup — it is a thread root in the sense of the spec. -/
theorem resolveRootAux_no_cycle_root (fus : List Followup) (uid : Nat) :
    ∀ fuel : Nat, ∀ visited : Finset Nat, ∀ cur : Nat,
      (resolveRootAux fus uid fuel visited cur).2 = false →
        findIncomingFollowup fus uid
          (resolveRootAux fus uid fuel visited cur).1 = none := by
  intro fuel
  induction fuel with
  | zero =>
    intro visited cur h
    exact absurd h (by simp [resolveRootAux])
  | succ fuel ih =>
    intro visited cur h
    by_cases hv : cur ∈ visited
    · rw [resolveRootAux_of_mem fus uid _ _ _ hv] at h
      exact absurd h (by simp)
    · rw [resolveRootAux] at h ⊢
      rw [if_neg hv] at h ⊢
      cases hfi : findIncomingFollowup fus uid cur with
      | none => exact hfi
      | some f =>
        rw [hfi] at h
        exact ih _ _ h

/-- A question with no incoming used followup resolves to itself. -/
theorem resolveRoot_of_no_incoming (db : DB) (uid q : Nat)
    (h : findIncomingFollowup db.followups uid q = none) :
    resolveRootQuestionId db uid q = q := by
  rw [resolveRootQuestionId, resolveRootAux, if_neg (by simp), h]

end RootResolutionLemmas

section Claims

/-- **C1** — Idempotent replay of ask: when a succeeded question (with its
stored answer row) already exists for `(user, idempotency_key)`, a subsequent
`_execute_ask` with the same key returns the database unchanged — no new
`Question` row, no new credit transaction, wallet balance untouched — and
replays the stored answer content and request id of the original call. -/
theorem ask_replay_idempotent (db : DB) (u : Nat) (t l m k : String)
    (g : Bool) (q : Question) (a : Answer)
    (hq : findSucceededQuestion db u k = some q)
    (ha : findAnswer db q.qid = some a) :
    executeAsk db u t l m k g = (db, .ok (toAskResponse db q a, q.qid)) ∧
      (executeAsk db u t l m k g).1.questions = db.questions ∧
      (executeAsk db u t l m k g).1.transactions = db.transactions ∧
      walletBalance (executeAsk db u t l m k g).1 u = walletBalance db u ∧
      (executeAsk db u t l m k g).2.map (fun p => p.1.answer) =
        .ok a.answerText ∧
      (executeAsk db u t l m k g).2.map (fun p => p.1.requestId) =
        .ok q.requestId := by
  have h := executeAsk_replay db u t l m k g q a hq ha
  refine ⟨h, ?_, ?_, ?_, ?_, ?_⟩ <;> simp [h, Except.map, toAskResponse]

/-- Witness for C1 on the state after one successful ask: the replayed call
(with a different body and oracle) returns the stored response verbatim. -/
theorem ask_replay_idempotent_witness :
    executeAsk exampleSuccessDb 1 "another question" "vi" "oracle" "K" false =
      (exampleSuccessDb,
        .ok (toAskResponse exampleSuccessDb
          ⟨1, 1, "q", "zh", "analysis", "succeeded", "mock", "req-0", "K"⟩
          ⟨1, buildMockAnswerText "q", 70, 20, 10⟩, 1)) :=
  (ask_replay_idempotent exampleSuccessDb 1 "another question" "vi" "oracle"
    "K" false
    ⟨1, 1, "q", "zh", "analysis", "succeeded", "mock", "req-0", "K"⟩
    ⟨1, buildMockAnswerText "q", 70, 20, 10⟩ rfl rfl).1

/-- **C10** — The replay branch matches only on
`(user, idempotency_key, status = "succeeded")`: once a succeeded question
with an answer exists for the key, the result of `_execute_ask` is identical
for any question text, language, mode, and generation-oracle value — the
retry's body has no influence on the response. -/
theorem replay_ignores_request_body (db : DB) (u : Nat) (k : String)
    (q : Question) (a : Answer)
    (hq : findSucceededQuestion db u k = some q)
    (ha : findAnswer db q.qid = some a)
    (t₁ l₁ m₁ t₂ l₂ m₂ : String) (g₁ g₂ : Bool) :
    executeAsk db u t₁ l₁ m₁ k g₁ = executeAsk db u t₂ l₂ m₂ k g₂ := by
  rw [executeAsk_replay db u t₁ l₁ m₁ k g₁ q a hq ha,
    executeAsk_replay db u t₂ l₂ m₂ k g₂ q a hq ha]

/-- Witness for C10: two replays with entirely different bodies coincide. -/
theorem replay_ignores_request_body_witness :
    executeAsk exampleSuccessDb 1 "body A" "zh" "analysis" "K" true =
      executeAsk exampleSuccessDb 1 "body B" "vi" "verdict" "K" false :=
  replay_ignores_request_body exampleSuccessDb 1 "K"
    ⟨1, 1, "q", "zh", "analysis", "succeeded", "mock", "req-0", "K"⟩
    ⟨1, buildMockAnswerText "q", 70, 20, 10⟩ rfl rfl
    "body A" "zh" "analysis" "body B" "vi" "verdict" true false

/-- **C4** — Reserve phase semantics: with no replayable success for the key,
a balance below the cost (1) fails with `InsufficientCredit` and performs no
mutation; otherwise the committed reserve state has the balance decremented
by exactly 1 together with a `reserve` transaction of amount −1 appended in
the same atomic commit, and the completed call leaves exactly one additional
reserve row for the key. -/
theorem reserve_phase_semantics (db : DB) (u : Nat) (t l m k : String)
    (g : Bool) (hnone : findExistingAskResponse db u k = none) :
    (walletBalance db u < CREDIT_COST_PER_ASK →
       executeAsk db u t l m k g = (db, .error .insufficientCredit)) ∧
      (¬ walletBalance db u < CREDIT_COST_PER_ASK →
        hasTxn db u "reserve" k = false →
          walletBalance (reserveCommit db u k (mkRequestId db.nextId)) u =
              walletBalance db u - CREDIT_COST_PER_ASK ∧
            (reserveCommit db u k (mkRequestId db.nextId)).transactions =
              db.transactions ++ [⟨u, none, none, "reserve",
                -CREDIT_COST_PER_ASK, "ASK_RESERVED", k,
                mkRequestId db.nextId⟩] ∧
            txCount (executeAsk db u t l m k g).1 u "reserve" k =
              txCount db u "reserve" k + 1) := by
  refine ⟨fun hbal => executeAsk_insufficient db u t l m k g hnone hbal,
    fun hbal hres => ⟨reserveCommit_walletBalance db u k _,
      reserveCommit_transactions db u k _,
      txCount_executeAsk_reserve db u t l m k g hnone hbal hres⟩⟩

/-- Witness for C4: a zero-balance user gets a mutation-free 402; a funded
user ends with exactly one reserve row for the key. -/
theorem reserve_phase_semantics_witness :
    executeAsk
        { questions := [], answers := [], followups := [],
          wallets := [⟨1, 0⟩], transactions := [], orders := [], nextId := 0 }
        1 "q" "zh" "analysis" "K" true =
      ({ questions := [], answers := [], followups := [],
          wallets := [⟨1, 0⟩], transactions := [], orders := [], nextId := 0 },
        .error .insufficientCredit) ∧
      txCount (executeAsk exampleBaseDb 1 "q" "zh" "analysis" "K" true).1
        1 "reserve" "K" = 1 := by
  constructor
  · exact (reserve_phase_semantics
      { questions := [], answers := [], followups := [],
        wallets := [⟨1, 0⟩], transactions := [], orders := [], nextId := 0 }
      1 "q" "zh" "analysis" "K" true rfl).1 (by decide)
  · have h := (reserve_phase_semantics exampleBaseDb 1 "q" "zh" "analysis"
      "K" true rfl).2 (by decide) rfl
    rw [h.2.2]
    rfl

/-- **C6** — Duplicate-reserve conflict handling: the `IntegrityError`
handler re-runs the replay check; when a succeeded question with its answer
exists it returns that stored response, otherwise it reports the 409
`DuplicateInProgress` conflict (not a server error); and `_execute_ask`
routes the uniqueness-constraint failure of the reserve commit into exactly
this handler. -/
theorem duplicate_reserve_conflict (db : DB) (u : Nat) (t l m k : String)
    (g : Bool) :
    (∀ q a, findSucceededQuestion db u k = some q →
        findAnswer db q.qid = some a →
          onReserveConflict db u k = (db, .ok (toAskResponse db q a, q.qid))) ∧
      (findExistingAskResponse db u k = none →
        onReserveConflict db u k = (db, .error .idempotencyConflict)) ∧
      (findExistingAskResponse db u k = none →
        ¬ walletBalance db u < CREDIT_COST_PER_ASK →
          hasTxn db u "reserve" k = true →
            executeAsk db u t l m k g = onReserveConflict db u k) := by
  refine ⟨?_, ?_, ?_⟩
  · intro q a hq ha
    have hresp : findExistingAskResponse db u k =
        some (toAskResponse db q a) := by
      simp only [findExistingAskResponse, hq, ha]
    have hid : findSucceededQuestionId db u k = some q.qid := by
      rw [findSucceededQuestionId, hq]
      rfl
    rw [onReserveConflict, hresp, hid]
  · intro hnone
    rw [onReserveConflict, hnone]
  · intro hnone hbal hres
    rw [executeAsk, hnone]
    simp only
    rw [if_neg hbal, if_pos hres]

/-- Witness for C6: on the refunded state (where a reserve row for `"K"`
exists but no succeeded question), the handler 409s and `_execute_ask`
reaches it; on the success state the handler replays. -/
theorem duplicate_reserve_conflict_witness :
    onReserveConflict exampleSuccessDb 1 "K" =
      (exampleSuccessDb,
        .ok (toAskResponse exampleSuccessDb
          ⟨1, 1, "q", "zh", "analysis", "succeeded", "mock", "req-0", "K"⟩
          ⟨1, buildMockAnswerText "q", 70, 20, 10⟩, 1)) ∧
      onReserveConflict exampleRefundedDb 1 "K" =
        (exampleRefundedDb, .error .idempotencyConflict) ∧
      executeAsk exampleRefundedDb 1 "q" "zh" "analysis" "K" true =
        onReserveConflict exampleRefundedDb 1 "K" := by
  refine ⟨?_, ?_, ?_⟩
  · exact (duplicate_reserve_conflict exampleSuccessDb 1 "q" "zh" "analysis"
      "K" true).1
      ⟨1, 1, "q", "zh", "analysis", "succeeded", "mock", "req-0", "K"⟩
      ⟨1, buildMockAnswerText "q", 70, 20, 10⟩ rfl rfl
  · exact (duplicate_reserve_conflict exampleRefundedDb 1 "q" "zh" "analysis"
      "K" true).2.1 rfl
  · exact (duplicate_reserve_conflict exampleRefundedDb 1 "q" "zh" "analysis"
      "K" true).2.2 rfl (by decide) rfl

/-- **C2** — Compensating refund is exactly-once and restores the balance:
`_refund_reserved_credit` is a no-op when a refund row for the key already
exists, and otherwise adds exactly 1 to the balance together with a single
`refund` transaction of amount +1; an ask that fails after a successful
reserve ends with the pre-reserve balance, exactly one refund row and no new
capture row for the key; and `_execute_ask` preserves the invariant that
every reserve is matched by exactly one capture or exactly one refund. -/
theorem refund_exactly_once (db : DB) (u : Nat) (t l m r k : String)
    (g : Bool) (qo : Option Nat) :
    (hasTxn db u "refund" k = true →
       refundReservedCredit db u r k qo = db) ∧
      (hasTxn db u "refund" k = false →
        walletBalance (refundReservedCredit db u r k qo) u =
            walletBalance db u + CREDIT_COST_PER_ASK ∧
          (refundReservedCredit db u r k qo).transactions =
            db.transactions ++ [⟨u, qo, none, "refund", CREDIT_COST_PER_ASK,
              "ASK_REFUNDED", k, r⟩] ∧
          txCount (refundReservedCredit db u r k qo) u "refund" k = 1) ∧
      (findExistingAskResponse db u k = none →
        ¬ walletBalance db u < CREDIT_COST_PER_ASK →
          hasTxn db u "reserve" k = false →
            hasTxn db u "refund" k = false →
              (g = false ∨ questionKeyExists db u k = true) →
                (executeAsk db u t l m k g).2 = .error .askProcessingFailed ∧
                  walletBalance (executeAsk db u t l m k g).1 u =
                    walletBalance db u ∧
                  txCount (executeAsk db u t l m k g).1 u "refund" k = 1 ∧
                  txCount (executeAsk db u t l m k g).1 u "capture" k =
                    txCount db u "capture" k) ∧
      (ReserveMatched db → ReserveMatched (executeAsk db u t l m k g).1) := by
  refine ⟨refund_eq_of_hasRefund db u r k qo, fun hrf => ?_,
    fun hnone hbal hres hrf hfail => ?_,
    reserveMatched_executeAsk db u t l m k g⟩
  · have hf0 : txCount db u "refund" k = 0 :=
      (hasTxn_false_iff_txCount_zero db u "refund" k).mp hrf
    refine ⟨refund_walletBalance_of_no_refund db u r k qo hrf,
      refund_transactions_of_no_refund db u r k qo hrf, ?_⟩
    rw [txCount_refund_of_no_refund db u r k qo hrf,
      if_pos ⟨rfl, rfl, rfl⟩, hf0]
  · set r' := mkRequestId db.nextId with hr'
    have hf0 : txCount db u "refund" k = 0 :=
      (hasTxn_false_iff_txCount_zero db u "refund" k).mp hrf
    have hf1 : txCount (reserveCommit db u k r') u "refund" k =
        txCount db u "refund" k := by
      rw [txCount_reserveCommit,
        if_neg (fun hh => absurd hh.2.1 (by decide)), Nat.add_zero]
    have hrf1 : hasTxn (reserveCommit db u k r') u "refund" k = false :=
      (hasTxn_false_iff_txCount_zero _ u "refund" k).mpr (hf1.trans hf0)
    rw [executeAsk_failure db u t l m k g hnone hbal hres hfail]
    refine ⟨rfl, ?_, ?_, ?_⟩
    · show walletBalance
        (refundReservedCredit (reserveCommit db u k r') u r' k none) u = _
      rw [refund_walletBalance_of_no_refund _ u r' k none hrf1,
        reserveCommit_walletBalance]
      omega
    · show txCount
        (refundReservedCredit (reserveCommit db u k r') u r' k none)
          u "refund" k = 1
      rw [txCount_refund_of_no_refund _ u r' k none hrf1,
        if_pos ⟨rfl, rfl, rfl⟩, hf1, hf0]
    · show txCount
        (refundReservedCredit (reserveCommit db u k r') u r' k none)
          u "capture" k = _
      rw [txCount_refund_of_no_refund _ u r' k none hrf1,
        if_neg (fun hh => absurd hh.2.1 (by decide)),
        txCount_reserveCommit,
        if_neg (fun hh => absurd hh.2.1 (by decide))]
      omega

/-- Witness for C2: the refunded example state absorbs a second refund
(no-op); a fresh refund on the base state yields exactly one refund row; the
failed ask from the base state restores balance 2 with one refund row; and
the ledger of the refunded state is matched (capture + refund = reserve for
the key). -/
theorem refund_exactly_once_witness :
    refundReservedCredit exampleRefundedDb 1 "req-9" "K" none =
        exampleRefundedDb ∧
      txCount (refundReservedCredit exampleBaseDb 1 "req-9" "K" none)
          1 "refund" "K" = 1 ∧
      (executeAsk exampleBaseDb 1 "q" "zh" "analysis" "K" false).2 =
          .error .askProcessingFailed ∧
      walletBalance (executeAsk exampleBaseDb 1 "q" "zh" "analysis" "K"
          false).1 1 = 2 ∧
      txCount (executeAsk exampleBaseDb 1 "q" "zh" "analysis" "K" false).1
          1 "capture" "K" +
        txCount (executeAsk exampleBaseDb 1 "q" "zh" "analysis" "K" false).1
          1 "refund" "K" =
        txCount (executeAsk exampleBaseDb 1 "q" "zh" "analysis" "K" false).1
          1 "reserve" "K" := by
  have hbase : ReserveMatched exampleBaseDb := by
    intro u k
    exact ⟨by simp [txCount, txCountOf, exampleBaseDb],
      by simp [txCount, txCountOf, exampleBaseDb]⟩
  have h1 := (refund_exactly_once exampleRefundedDb 1 "q" "zh" "analysis"
    "req-9" "K" false none).1 rfl
  have h2 := ((refund_exactly_once exampleBaseDb 1 "q" "zh" "analysis"
    "req-9" "K" false none).2.1 rfl).2.2
  have h3 := (refund_exactly_once exampleBaseDb 1 "q" "zh" "analysis"
    "req-9" "K" false none).2.2.1 rfl (by decide) rfl rfl (Or.inl rfl)
  have h4 := ((refund_exactly_once exampleBaseDb 1 "q" "zh" "analysis"
    "req-9" "K" false none).2.2.2 hbase) 1 "K"
  exact ⟨h1, h2, h3.1, by rw [h3.2.1]; rfl, h4.2⟩

/-- **C7** — History list contains only thread roots: every item of the
history index corresponds to a question row that is owned by the caller, has
status `"succeeded"`, and is not the `used_question_id` of any of the
caller's followups (children are never listed). -/
theorem history_lists_only_roots (db : DB) (u limit offset : Nat)
    (item : AskHistoryItem) (hmem : item ∈ getAskHistory db u limit offset) :
    ∃ q ∈ db.questions, q.qid = item.questionId ∧ q.userId = u ∧
      q.status = "succeeded" ∧
      ∀ f ∈ db.followups, f.userId = u → f.usedQuestionId ≠ some q.qid := by
  rw [getAskHistory] at hmem
  obtain ⟨qa, hqa, hitem⟩ := List.mem_map.mp hmem
  have hqa2 : qa ∈ historyRows db u := by
    have h1 := List.mem_of_mem_take hqa
    have h2 := List.drop_subset offset _ h1
    exact List.mem_reverse.mp h2
  rw [historyRows] at hqa2
  obtain ⟨q, hqf, hfa⟩ := List.mem_filterMap.mp hqa2
  obtain ⟨hqmem, hpred⟩ := List.mem_filter.mp hqf
  have hqa1 : qa.1 = q := by
    cases hfnd : findAnswer db q.qid with
    | none =>
      rw [hfnd] at hfa
      exact absurd hfa (by simp)
    | some a =>
      rw [hfnd] at hfa
      have : (q, a) = qa := by simpa using hfa
      rw [← this]
  simp only [Bool.and_eq_true, beq_iff_eq, Bool.not_eq_true'] at hpred
  have hnotin : q.qid ∉ usedChildIds db u := by
    simpa using hpred.2
  refine ⟨q, hqmem, ?_, hpred.1.1, hpred.1.2, ?_⟩
  · rw [← hitem, hqa1]
  · intro f hf hfu heq
    apply hnotin
    rw [usedChildIds]
    exact List.mem_filterMap.mpr ⟨f, hf, by rw [if_pos (by simp [hfu])]; exact heq⟩

/-- **C8** — Root resolution is consistent and terminating: (i) on any
input — cyclic malformed data included — the walk of
`_resolve_root_question_id` stabilizes at the fuel `|followups| + 1`, so the
visited-set guard makes it terminate with the same answer any larger budget
would give; (ii) a question with no incoming used followup is its own root
(the walk stops at the first such question); (iii) whenever the cycle guard
was not hit, the resolved root has no incoming used followup and resolves to
itself, so resolution from any thread member agrees with resolution from the
root; (iv) consequently history detail on the resolved root id returns the
same root as detail on the original question id. -/
theorem root_resolution_consistent (db : DB) (u q : Nat) :
    (∀ extra : Nat,
        (resolveRootAux db.followups u (db.followups.length + 1 + extra) ∅
            q).1 =
          resolveRootQuestionId db u q) ∧
      (findIncomingFollowup db.followups u q = none →
        resolveRootQuestionId db u q = q) ∧
      (resolveRootCycled db u q = false →
        findIncomingFollowup db.followups u (resolveRootQuestionId db u q) =
            none ∧
          resolveRootQuestionId db u (resolveRootQuestionId db u q) =
            resolveRootQuestionId db u q) ∧
      (∀ r : Nat, getAskHistoryDetailRootId db u q = some r →
        resolveRootCycled db u q = false →
          getAskHistoryDetailRootId db u r = some r) := by
  have hroot : resolveRootCycled db u q = false →
      findIncomingFollowup db.followups u (resolveRootQuestionId db u q) =
          none ∧
        resolveRootQuestionId db u (resolveRootQuestionId db u q) =
          resolveRootQuestionId db u q := by
    intro hc
    have h1 := resolveRootAux_no_cycle_root db.followups u
      (db.followups.length + 1) ∅ q hc
    exact ⟨h1, resolveRoot_of_no_incoming db u _ h1⟩
  refine ⟨?_, resolveRoot_of_no_incoming db u q, hroot, ?_⟩
  · intro extra
    rw [resolveRootQuestionId, resolveRootAux_fuel_stable db.followups u q
      extra]
  · intro r hdet hc
    rw [getAskHistoryDetailRootId] at hdet
    cases hv : findVisibleQuestion db u q with
    | none =>
      rw [hv] at hdet
      exact absurd hdet (by simp)
    | some qa =>
      rw [hv] at hdet
      simp only at hdet
      cases hv2 : findVisibleQuestion db u (resolveRootQuestionId db u q) with
      | none =>
        rw [hv2] at hdet
        exact absurd hdet (by simp)
      | some ra =>
        rw [hv2] at hdet
        simp only [Option.some.injEq] at hdet
        have hr : r = resolveRootQuestionId db u q := hdet.symm
        subst hr
        have hfix := (hroot hc).2
        rw [getAskHistoryDetailRootId, hfix]
        simp only [hv2]

/-- Witness for C8 on the two-question thread (question 6 is the resolved
child of followup 2 under question 1): extra fuel yields the same root for
question 6; question 1 is its own root; the un-cycled walk from 6 ends at a
question with no incoming followup that resolves to itself; and history
detail from the root id 1 returns root 1, as detail from 6 does. -/
theorem root_resolution_consistent_witness :
    (resolveRootAux exampleThreadDb.followups 1
        (exampleThreadDb.followups.length + 1 + 5) ∅ 6).1 =
      resolveRootQuestionId exampleThreadDb 1 6 ∧
      resolveRootQuestionId exampleThreadDb 1 1 = 1 ∧
      findIncomingFollowup exampleThreadDb.followups 1
          (resolveRootQuestionId exampleThreadDb 1 6) = none ∧
      resolveRootQuestionId exampleThreadDb 1
          (resolveRootQuestionId exampleThreadDb 1 6) =
        resolveRootQuestionId exampleThreadDb 1 6 ∧
      getAskHistoryDetailRootId exampleThreadDb 1 6 = some 1 ∧
      getAskHistoryDetailRootId exampleThreadDb 1 1 = some 1 := by
  have h := root_resolution_consistent exampleThreadDb 1 6
  have h3 := h.2.2.1 (by decide)
  exact ⟨h.1 5, (root_resolution_consistent exampleThreadDb 1 1).2.1
      (by decide),
    h3.1, h3.2, by decide, h.2.2.2 1 (by decide) (by decide)⟩

/-- **C9 (counterexample)** — The claim that an ask response contains the
*still-pending* follow-up options fails on the code: in the thread state
(followup 2 was consumed and is `"used"`), replaying the original ask with
key `"K"` returns follow-up options `[2, 3, 4]` — including the used
followup 2 — whereas the spec's still-pending set is `[3, 4]`. -/
theorem ask_response_not_pending_counterexample :
    (executeAsk exampleThreadDb 1 "q" "zh" "analysis" "K" true).2.toOption.map
        (fun p => p.1.followupOptions) ≠
      some (pendingFollowupOptions exampleThreadDb 1) ∧
      (findFollowup exampleThreadDb 2).map (·.status) = some "used" ∧
      (executeAsk exampleThreadDb 1 "q" "zh" "analysis" "K"
          true).2.toOption.map (fun p => p.1.followupOptions.map Prod.fst) =
        some [2, 3, 4] ∧
      (pendingFollowupOptions exampleThreadDb 1).map Prod.fst = [3, 4] := by
  refine ⟨by decide, rfl, rfl, rfl⟩

/-- **C9 (amended)** — The response assembled for an ask (fresh, replayed,
or replayed out of the duplicate-reserve handler) contains the question's
first follow-up options in creation order, capped at three, regardless of
their pending/used status. -/
theorem ask_response_followup_options (db : DB) (u : Nat)
    (t l m k : String) (g : Bool) (resp : AskResponse) (qid : Nat)
    (h : (executeAsk db u t l m k g).2 = .ok (resp, qid)) :
    resp.followupOptions =
      (((executeAsk db u t l m k g).1.followups.filter
          (fun f => f.questionId == qid)).take
        FOLLOWUP_OPTIONS_COUNT).map (fun f => (f.fid, f.content)) := by
  cases hfe : findExistingAskResponse db u k with
  | some resp0 =>
    have hex : ∃ q a, findSucceededQuestion db u k = some q ∧
        findAnswer db q.qid = some a ∧ resp0 = toAskResponse db q a := by
      rw [findExistingAskResponse] at hfe
      cases hq : findSucceededQuestion db u k with
      | none =>
        rw [hq] at hfe
        exact absurd hfe (by simp)
      | some q =>
        rw [hq] at hfe
        have hfe2 : (match findAnswer db q.qid with
            | none => none
            | some answer => some (toAskResponse db q answer)) =
            some resp0 := hfe
        cases ha : findAnswer db q.qid with
        | none =>
          rw [ha] at hfe2
          exact absurd hfe2 (by simp)
        | some a =>
          rw [ha] at hfe2
          exact ⟨q, a, rfl, ha, by simpa using hfe2.symm⟩
    obtain ⟨q, a, hq, ha, _⟩ := hex
    have heq := executeAsk_replay db u t l m k g q a hq ha
    rw [heq] at h ⊢
    simp only [Except.ok.injEq, Prod.mk.injEq] at h
    obtain ⟨h1, h2⟩ := h
    rw [← h1, ← h2]
    rfl
  | none =>
    by_cases hbal : walletBalance db u < CREDIT_COST_PER_ASK
    · rw [executeAsk_insufficient db u t l m k g hfe hbal] at h
      exact absurd h (by simp)
    · by_cases hres : hasTxn db u "reserve" k = true
      · rw [executeAsk_conflict db u t l m k g hfe hbal hres] at h
        exact absurd h (by simp)
      · have hres' : hasTxn db u "reserve" k = false := by simpa using hres
        by_cases hgo : g = true ∧ questionKeyExists db u k = false
        · obtain ⟨hg, hk⟩ := hgo
          subst hg
          have heq := executeAsk_success db u t l m k hfe hbal hres' hk
          rw [heq] at h ⊢
          simp only [Except.ok.injEq, Prod.mk.injEq] at h
          obtain ⟨h1, h2⟩ := h
          obtain ⟨hresp, hqid⟩ := successBundle_result
            (reserveCommit db u k (mkRequestId db.nextId)) u t l m k
            (mkRequestId db.nextId)
          rw [← h1, ← h2, hresp, hqid]
          rfl
        · have hfail : g = false ∨ questionKeyExists db u k = true := by
            by_cases hg : g = true
            · by_cases hke : questionKeyExists db u k = true
              · exact Or.inr hke
              · exact absurd ⟨hg, by simpa using hke⟩ hgo
            · exact Or.inl (by simpa using hg)
          rw [executeAsk_failure db u t l m k g hfe hbal hres' hfail] at h
          exact absurd h (by simp)

/-- Witness for the amended C9 on the thread state: the replayed response's
options are the first three followups of question 1 regardless of status. -/
theorem ask_response_followup_options_witness :
    (toAskResponse exampleThreadDb
        ⟨1, 1, "q", "zh", "analysis", "succeeded", "mock", "req-0", "K"⟩
        ⟨1, buildMockAnswerText "q", 70, 20, 10⟩).followupOptions =
      (((executeAsk exampleThreadDb 1 "q" "zh" "analysis" "K"
            true).1.followups.filter (fun f => f.questionId == 1)).take
        FOLLOWUP_OPTIONS_COUNT).map (fun f => (f.fid, f.content)) :=
  ask_response_followup_options exampleThreadDb 1 "q" "zh" "analysis" "K"
    true
    (toAskResponse exampleThreadDb
      ⟨1, 1, "q", "zh", "analysis", "succeeded", "mock", "req-0", "K"⟩
      ⟨1, buildMockAnswerText "q", 70, 20, 10⟩) 1 rfl

/-- Witness for C7: the single listed item of the one-ask state is the
succeeded root question 1, and no followup of the user resolves to it. -/
theorem history_lists_only_roots_witness :
    ∃ q ∈ exampleSuccessDb.questions, q.qid = 1 ∧ q.userId = 1 ∧
      q.status = "succeeded" ∧
      ∀ f ∈ exampleSuccessDb.followups, f.userId = 1 →
        f.usedQuestionId ≠ some q.qid :=
  history_lists_only_roots exampleSuccessDb 1 20 0
    ⟨1, "q", buildMockAnswerText "q", "mock", 1⟩ (by decide)

/-- **C5** — Non-negative balance invariant: starting from a state with one
wallet row per user and all balances ≥ 0, every credit operation — an ask
(wallet creation, reserve, capture or refund), a follow-up ask, a standalone
compensating refund, and a simulated purchase — leaves every wallet balance
≥ 0; the protocol never decrements below zero, so the storage `CHECK`
constraint is only a last-resort guard. -/
theorem balances_nonneg_invariant (db : DB) (hok : WalletsOk db)
    (hnn : NonNegBalances db) :
    (∀ u : Nat, ∀ t l m k : String, ∀ g : Bool,
        NonNegBalances (executeAsk db u t l m k g).1) ∧
      (∀ u fid : Nat, ∀ g : Bool,
        NonNegBalances (askFollowup db u fid g).1) ∧
      (∀ u : Nat, ∀ r k : String, ∀ qo : Option Nat,
        NonNegBalances (refundReservedCredit db u r k qo)) ∧
      (∀ u oid : Nat, NonNegBalances (simulateOrderPaid db u oid).1) :=
  ⟨fun u t l m k g => (nonneg_walletsOk_executeAsk db u t l m k g hok hnn).2,
    fun u fid g => (nonneg_walletsOk_askFollowup db u fid g hok hnn).2,
    fun u r k qo => (nonneg_walletsOk_refund db u r k qo hok hnn).2,
    fun u oid => (nonneg_walletsOk_simulateOrderPaid db u oid hok hnn).2⟩

/-- Witness for C5 at the two-credit base state: concrete balances stay
non-negative after an ask and after a purchase attempt. -/
theorem balances_nonneg_invariant_witness :
    0 ≤ walletBalance
        (executeAsk exampleBaseDb 1 "q" "zh" "analysis" "K9" true).1 1 ∧
      0 ≤ walletBalance (askFollowup exampleBaseDb 1 5 true).1 1 ∧
      0 ≤ walletBalance
        (refundReservedCredit exampleBaseDb 1 "req-9" "K9" none) 1 ∧
      0 ≤ walletBalance (simulateOrderPaid exampleBaseDb 1 7).1 1 := by
  have h := balances_nonneg_invariant exampleBaseDb
    (by simp [WalletsOk, exampleBaseDb])
    (by intro w hw; simp [exampleBaseDb] at hw; simp [hw])
  exact ⟨nonneg_walletBalance _ 1 (h.1 1 "q" "zh" "analysis" "K9" true),
    nonneg_walletBalance _ 1 (h.2.1 1 5 true),
    nonneg_walletBalance _ 1 (h.2.2.1 1 "req-9" "K9" none),
    nonneg_walletBalance _ 1 (h.2.2.2 1 7)⟩

/-- **C3** — evidence against retry-safety: starting from a two-credit
wallet, an ask with key `"K"` whose generation fails is refunded (balance
back to 2), but every retry with the same key — with generation now healthy
or not — hits the `(user, "reserve", "K")` uniqueness constraint, finds no
succeeded question on the re-check, and returns the 409
`IDEMPOTENCY_CONFLICT` while leaving the state unchanged; the key is
therefore permanently unusable, contradicting the claim that a retry either
replays a success or re-attempts generation. -/
theorem retry_after_refund_conflicts :
    (executeAsk exampleBaseDb 1 "q" "zh" "analysis" "K" false).2 =
        .error .askProcessingFailed ∧
      walletBalance exampleRefundedDb 1 = 2 ∧
      executeAsk exampleRefundedDb 1 "q" "zh" "analysis" "K" true =
        (exampleRefundedDb, .error .idempotencyConflict) ∧
      executeAsk exampleRefundedDb 1 "q" "zh" "analysis" "K" false =
        (exampleRefundedDb, .error .idempotencyConflict) := by
  exact ⟨rfl, rfl, rfl, rfl⟩

end Claims

end CyberOracle
